import Mathlib

set_option maxRecDepth 4000

/-!
Verification of the Sync-Scansia outlet synchronisation workflow.

This file gives a shallow embedding, in Lean 4, of the parts of the
repository that the specification talks about:

* string and price utilities from `src/sync.py` (`_clean_price`, the
  quantity parser, the outlet handle and title rules);
* the retry loops of `src/sync.py` (`Shopify._request`) and of
  `src/shopify_client.py` (`ShopifyClient._rest`);
* a remote-store model (products, variants, images, inventory levels)
  together with the read queries (`find_product_by_sku_non_outlet`,
  `find_outlet_by_sku`, `find_product_by_handle`) and the mutating steps
  (`product_duplicate`, `update_product_basic`, `copy_images`,
  `copy_metafields`, `delete_collects`, `variants_bulk_update_prices`,
  the inventory choreography of `process_sku_group`);
* the orchestrator loop of `main` and the dry-run gate, and the
  price-fixing pass of `fix_prices.py`.

Numeric idealisation: CPython parses price and quantity cells with
`float` and formats with `"%.2f"`.  The embedding parses the same digit
strings into exact scaled-integer decimals (an integer numerator with a
power-of-ten scale) and formats with exact half-even rounding to two
decimals; a parsed value at or beyond the IEEE-754 double
overflow bound (`2^1024 - 2^970`) formats as the string "inf", exactly
as CPython does.  The double rounding of CPython can move the last
formatted digit on ties, but it never changes the shape of the output,
and none of the theorems below depends on such a tie.  Digits are
modelled as the ASCII digits.
-/

/-- Check that the second character list starts with the first. -/
def startsList : List Char → List Char → Bool
  | [], _ => true
  | _ :: _, [] => false
  | p :: ps, c :: cs => p == c && startsList ps cs

/-- Check that the pattern occurs somewhere inside the list. -/
def subList (p : List Char) (l : List Char) : Bool :=
  startsList p l ||
    match l with
    | [] => false
    | _ :: cs => subList p cs

/-- Model of the Python substring test `pat in s`. -/
def pyContains (s pat : String) : Bool := subList pat.data s.data

/-- Model of the Python test `s.endswith(pat)`. -/
def pyEndsWith (s pat : String) : Bool :=
  startsList pat.data.reverse s.data.reverse

/-- Model of Python `str.lower` on ASCII text. -/
def pyLower (s : String) : String := ⟨s.data.map Char.toLower⟩

/-- Whitespace characters stripped by Python `str.strip`. -/
def pyIsSpace (c : Char) : Bool :=
  c == ' ' || c == '\t' || c == '\n' || c == '\r'

/-- Model of Python `str.strip()`. -/
def pyStrip (s : String) : String :=
  ⟨((s.data.dropWhile pyIsSpace).reverse.dropWhile pyIsSpace).reverse⟩

/-- Numeric value of a list of ASCII digit characters, most significant
first, read in base 10. -/
def natOfDigits (l : List Char) : Nat :=
  l.foldl (fun acc c => acc * 10 + (c.toNat - 48)) 0

/-- Model of CPython `float(s)` restricted to the grammar that can reach
it in this program: optional sign, then digits with at most one dot and
at least one digit.  Exponents, underscores and the named specials are
not in the reachable alphabet.  The exact decimal value is returned as
a pair (num, e) standing for num / 10 ^ e. -/
def parsePyFloatChars (l0 : List Char) : Option (ℤ × ℕ) :=
  let l1 := (l0.dropWhile pyIsSpace).reverse.dropWhile pyIsSpace |>.reverse
  let sgn : ℤ := if l1.headD ' ' == '-' then -1 else 1
  let l := if l1.headD ' ' == '-' || l1.headD ' ' == '+' then l1.tail else l1
  let ip := l.takeWhile (fun c => !(c == '.'))
  let rest := l.dropWhile (fun c => !(c == '.'))
  let fp := rest.tail
  let ok := ip.all Char.isDigit && fp.all Char.isDigit &&
    (!ip.isEmpty || !fp.isEmpty) &&
    (rest.isEmpty || (rest.headD ' ' == '.' && !fp.contains '.'))
  if ok then
    some (sgn * (natOfDigits ip * 10 ^ fp.length + natOfDigits fp), fp.length)
  else
    none

/-- Model of CPython `float(s)` on a string. -/
def parsePyFloat (s : String) : Option (ℤ × ℕ) := parsePyFloatChars s.data

/-- The IEEE-754 double overflow bound `2^1024 - 2^970`, scaled to the
denominator 10 ^ e: a parsed value num / 10 ^ e is rounded up to
infinity by CPython exactly when the bound is not above it. -/
def dblOverflowScaled (e : ℕ) : ℤ := ((2 ^ 1024 - 2 ^ 970) * 10 ^ e : ℕ)

/-- Fuelled digit expansion of a natural number, most significant digit
first. -/
def natDigitsF : Nat → Nat → List Char
  | 0, _ => []
  | fuel + 1, n =>
    if n < 10 then [Char.ofNat (48 + n)]
    else natDigitsF fuel (n / 10) ++ [Char.ofNat (48 + n % 10)]

/-- Decimal digit expansion of a natural number. -/
def natDigits (n : Nat) : List Char := natDigitsF (n + 1) n

/-- Round the fraction a / b to the nearest integer, ties to even, as
CPython string formatting does (b positive). -/
def roundHalfEvenScaled (a : ℤ) (b : ℤ) : ℤ :=
  let f := a.ediv b
  let r := a.emod b
  if 2 * r < b then f
  else if b < 2 * r then f + 1
  else if f % 2 = 0 then f else f + 1

/-- Model of CPython `f"{x:.2f}"` for a finite non-negative decimal
value num / 10 ^ e. -/
def pyFormat2 (num : ℤ) (e : ℕ) : String :=
  let n := (roundHalfEvenScaled (100 * num) (10 ^ e)).toNat
  let ip := n / 100
  let fp := n % 100
  ⟨natDigits ip ++ '.' :: natDigits (fp / 10) ++ natDigits (fp % 10)⟩

/-- Model of CPython `f"{float(s):.2f}"` on the decimal num / 10 ^ e:
formats as "inf" at or beyond the double overflow bound (the values
reachable here are never negative). -/
def pyFloatFormat2 (num : ℤ) (e : ℕ) : String :=
  if dblOverflowScaled e ≤ num then "inf" else pyFormat2 num e

/-- The comma-to-dot step of `_clean_price`: a lone comma with no dot
becomes the decimal dot (the local `s2` to `s3` of the source). -/
def cleanPriceS3 (s2 : List Char) : List Char :=
  if s2.count ',' == 1 && s2.count '.' == 0 then
    s2.map (fun c => if c == ',' then '.' else c)
  else s2

/-- Embedding of `_clean_price` from `src/src/sync.py` (lines 47-60):
strip the cell, drop every character that is not a digit, a comma or a
dot (the local `s2`), turn a lone comma with no dot into a dot, then
parse as a float and reformat with two decimals; any failure yields
`none`. -/
def cleanPrice (v : Option String) : Option String :=
  match v with
  | none => none
  | some raw =>
    if (pyStrip raw).data.isEmpty then none
    else
      match parsePyFloatChars (cleanPriceS3
        ((pyStrip raw).data.filter (fun c => c.isDigit || c == ',' || c == '.'))) with
      | none => none
      | some ne => some (pyFloatFormat2 ne.1 ne.2)

/-- Truncation of the decimal num / 10 ^ e toward zero, as Python
`int(...)` of a float. -/
def truncToInt (num : ℤ) (e : ℕ) : ℤ :=
  if 0 ≤ num then (num.toNat / 10 ^ e : ℕ) else -((-num).toNat / 10 ^ e : ℕ)

/-- Embedding of the quantity parser used by `main` and
`process_sku_group` in `src/src/sync.py` (lines 724-728 and 824-831):
`int(float(str(q).replace(",", ".")))` with every failure, including the
overflow of `int(inf)`, collapsed to 0 by the bare `except`. -/
def parseQta (s : String) : ℤ :=
  match parsePyFloat ⟨s.data.map (fun c => if c == ',' then '.' else c)⟩ with
  | none => 0
  | some ne =>
    if dblOverflowScaled ne.2 ≤ ne.1 ∨ ne.1 ≤ -dblOverflowScaled ne.2 then 0
    else truncToInt ne.1 ne.2

/-- Shape test: a non-empty run of digits, a dot, then exactly two
digits. -/
def isTwoDecString (s : String) : Bool :=
  match s.data.reverse with
  | d1 :: d2 :: '.' :: rest =>
    d1.isDigit && d2.isDigit && !rest.isEmpty && rest.all Char.isDigit
  | _ => false

/-- Embedding of the price-pair computation of `process_sku_group` in
`src/src/sync.py` (lines 612-616, applied at line 695): clean both
cells; when the sale price is missing fall back to the full price or to
"0.00"; the full price is passed through unchanged as the compare-at
value, with no fallback. The pair is (price, compareAtPrice). -/
def syncPricePair (pienoCell scontoCell : Option String) : String × Option String :=
  let pieno := cleanPrice pienoCell
  let scont := cleanPrice scontoCell
  let scontF := match scont with
    | some s => s
    | none => pieno.getD "0.00"
  (scontF, pieno)

/-- Embedding of the price-pair computation of `fix_prices_for_sku` in
`src/fix_prices.py` (lines 75-87): both directions of the fallback are
present, and a full price equal to "0.00" is also replaced by the sale
price. The pair is (price, compareAtPrice). -/
def fixPricePair (highCell outletCell : Option String) : String × String :=
  let pieno := cleanPrice highCell
  let scont := cleanPrice outletCell
  let scontF := match scont with
    | some s => s
    | none => pieno.getD "0.00"
  let pienoF := match pieno with
    | none => scontF
    | some p => if p == "0.00" then scontF else p
  (scontF, pienoF)

/-- Embedding of the derived-handle rule of `process_sku_group`
(`src/src/sync.py` line 629): the suffix is appended unconditionally. -/
def outletHandleRule (h : String) : String := h ++ "-outlet"

/-- Embedding of the derived-title rule of `process_sku_group`
(`src/src/sync.py` lines 631-634): the suffix is appended only when not
already present. -/
def outletTitleRule (t : String) : String :=
  if pyEndsWith t " - Outlet" then t else t ++ " - Outlet"

/-- An HTTP response as seen by the retry loops: a status code and the
optional Retry-After header already parsed as a number. -/
structure HttpResp where
  status : Nat
  retryAfter : Option ℚ
deriving DecidableEq

/-- Embedding of the retry loop of `Shopify._request` in
`src/src/sync.py` (lines 175-196).  The transport maps the 1-based
attempt number to the response.  Returns the sleeps performed, the
number of attempts made, and the response the loop ends with (`none`
models the unbound local variable when `max_retries` is zero).  On a
429 the loop sleeps the Retry-After value, defaulting to 1 second; on a
5xx it sleeps `min(2^(attempt-1), 8)`; any other status is returned at
once.  When the attempt budget runs out the last response is returned,
not raised. -/
def syncRequestAux (transport : Nat → HttpResp) :
    Nat → Nat → List ℚ × Nat × Option HttpResp
  | _, 0 => ([], 0, none)
  | attempt, rem + 1 =>
    let r := transport attempt
    if r.status == 429 then
      let rest := syncRequestAux transport (attempt + 1) rem
      ((r.retryAfter.getD 1) :: rest.1, rest.2.1 + 1, some (rest.2.2.getD r))
    else if 500 ≤ r.status && r.status < 600 then
      let rest := syncRequestAux transport (attempt + 1) rem
      (((min (2 ^ (attempt - 1)) 8 : Nat) : ℚ) :: rest.1, rest.2.1 + 1,
        some (rest.2.2.getD r))
    else
      ([], 1, some r)

/-- The `_request` loop entered at attempt 1 with the configured
`max_retries` budget. -/
def syncRequest (maxRetries : Nat) (transport : Nat → HttpResp) :
    List ℚ × Nat × Option HttpResp :=
  syncRequestAux transport 1 maxRetries

/-- Whether the `_get`/`_post`/`_put`/`_delete` wrappers of
`src/src/sync.py` (lines 198-220) raise after `_request` returns: they
raise exactly when the returned status is at least 400 (a missing
response models the unbound-variable error for a zero budget). -/
def syncWrapperRaises (maxRetries : Nat) (transport : Nat → HttpResp) : Bool :=
  match (syncRequest maxRetries transport).2.2 with
  | none => true
  | some r => 400 ≤ r.status

/-- Outcome of the `ShopifyClient._rest` loop. -/
inductive RestOutcome
  | ok (r : HttpResp)
  | raised (status : Nat)
  | exhausted
deriving DecidableEq

/-- Embedding of the retry loop of `ShopifyClient._rest` in
`src/src/shopify_client.py` (lines 67-119).  The attempt counter is
0-based as in `range(self._max_retries + 1)`.  `js` maps the attempt
number to the jitter factor drawn by `_jitter` for that attempt.  On a
429 or 430 the loop sleeps the Retry-After value when present (leaving
the backoff unchanged), else the jittered backoff, doubling it capped
at 20; a 5xx always sleeps the jittered backoff and doubles it; a 4xx
outside the ok codes raises at once; the remaining codes loop again
without sleeping.  An exhausted budget raises RetriesExhausted. -/
def clientRestAux (transport : Nat → HttpResp) (js : Nat → ℚ) :
    Nat → ℚ → Nat → List ℚ × Nat × RestOutcome
  | _, _, 0 => ([], 0, .exhausted)
  | attempt, backoff, rem + 1 =>
    let r := transport attempt
    if r.status == 200 || r.status == 201 || r.status == 202 || r.status == 204 then
      ([], 1, .ok r)
    else if r.status == 429 || r.status == 430 then
      match r.retryAfter with
      | some ra =>
        let rest := clientRestAux transport js (attempt + 1) backoff rem
        (ra :: rest.1, rest.2.1 + 1, rest.2.2)
      | none =>
        let rest := clientRestAux transport js (attempt + 1) (min (backoff * 2) 20) rem
        (backoff * js attempt :: rest.1, rest.2.1 + 1, rest.2.2)
    else if 500 ≤ r.status && r.status < 600 then
      let rest := clientRestAux transport js (attempt + 1) (min (backoff * 2) 20) rem
      (backoff * js attempt :: rest.1, rest.2.1 + 1, rest.2.2)
    else if 400 ≤ r.status then
      ([], 1, .raised r.status)
    else
      let rest := clientRestAux transport js (attempt + 1) backoff rem
      (rest.1, rest.2.1 + 1, rest.2.2)

/-- The `_rest` loop with the configured `_max_retries`: the range runs
over `max_retries + 1` attempts, starting with a backoff of 1. -/
def clientRest (maxRetries : Nat) (transport : Nat → HttpResp) (js : Nat → ℚ) :
    List ℚ × Nat × RestOutcome :=
  clientRestAux transport js 0 1 (maxRetries + 1)

/-- Terminal outcome of `process_sku_group`, as the strings it
returns. -/
inductive ProcOutcome
  | success
  | skipAlreadyActive
  | skipNoSource
deriving DecidableEq

/-- Per-group outcome as tallied by `main`, with the orchestrator-level
catch mapped to an error outcome. -/
inductive GOutcome
  | success
  | skipActive
  | skipSource
  | error
deriving DecidableEq

/-- The aggregate counters kept by `main` in `src/src/sync.py`
(line 865). -/
structure RunStats where
  success : Nat
  skipActive : Nat
  skipSource : Nat
  errors : Nat
  taglieGestite : Nat
deriving DecidableEq

/-- Outcome of one group under the orchestrator: a raised exception is
caught and recorded as an error. -/
def resOutcome : Except String ProcOutcome → GOutcome
  | .ok .success => .success
  | .ok .skipAlreadyActive => .skipActive
  | .ok .skipNoSource => .skipSource
  | .error _ => .error

/-- One counter update of the loop of `main` (`src/src/sync.py` lines
867-879). -/
def addStat (s : RunStats) (o : GOutcome) (nrows : Nat) : RunStats :=
  match o with
  | .success =>
    { s with success := s.success + 1, taglieGestite := s.taglieGestite + nrows }
  | .skipActive => { s with skipActive := s.skipActive + 1 }
  | .skipSource => { s with skipSource := s.skipSource + 1 }
  | .error => { s with errors := s.errors + 1 }

/-- Lifecycle state of a product.  The GraphQL layer renders these as
the uppercase strings ACTIVE, DRAFT, ARCHIVED and the REST update takes
the lowercase form; the enum stands for both spellings. -/
inductive PStatus
  | active
  | draft
  | archived
deriving DecidableEq

/-- A product variant as fetched by the GraphQL queries of
`src/src/sync.py`: id, sku, the selected options as (name, value)
pairs, and the numeric id of the owned inventory item. -/
structure SVariant where
  vid : Nat
  sku : String
  options : List (String × String)
  invItem : Nat
deriving DecidableEq

/-- A product image as the REST image endpoints see it. -/
structure SImage where
  iid : Nat
  src : String
  pos : Nat
  alt : String
deriving DecidableEq

/-- A metafield: namespace, key, type, value. -/
structure SMetafield where
  ns : String
  key : String
  mtype : String
  value : String
deriving DecidableEq

/-- A catalog product. -/
structure SProduct where
  pid : Nat
  title : String
  handle : String
  status : PStatus
  tags : String
  variants : List SVariant
  images : List SImage
  metafields : List SMetafield
deriving DecidableEq

/-- The remote store: products in listing order, inventory levels as
(inventory item, location, available) triples with at most one triple
per item and location, manual collection links as (collect id, product
id) pairs, the named locations, and a counter from which fresh ids are
drawn. -/
structure Store where
  products : List SProduct
  levels : List (Nat × Nat × ℤ)
  collects : List (Nat × Nat)
  locations : List (Nat × String)
  nextId : Nat
deriving DecidableEq

/-- The available quantity of an inventory item at a location, `none`
when the item is not connected there. -/
def getLevel (st : Store) (item loc : Nat) : Option ℤ :=
  (st.levels.find? (fun e => e.1 == item && e.2.1 == loc)).map (·.2.2)

/-- Set the available quantity, connecting the item when absent. -/
def setLevelList (ls : List (Nat × Nat × ℤ)) (item loc : Nat) (q : ℤ) :
    List (Nat × Nat × ℤ) :=
  if ls.any (fun e => e.1 == item && e.2.1 == loc) then
    ls.map (fun e => if e.1 == item && e.2.1 == loc then (item, loc, q) else e)
  else
    ls ++ [(item, loc, q)]

/-- Remove the level of an item at a location. -/
def delLevelList (ls : List (Nat × Nat × ℤ)) (item loc : Nat) :
    List (Nat × Nat × ℤ) :=
  ls.filter (fun e => !(e.1 == item && e.2.1 == loc))

/-- One remote call, as recorded in the call trace of a run. -/
inductive Call
  | gqlProductsBySku (sku : String)
  | gqlProductsByHandle (h : String)
  | gqlGetVariants (pid : Nat)
  | gqlDuplicate (pid : Nat) (newTitle : String)
  | restUpdateProduct (pid : Nat) (handle : String) (status : String) (tags : String)
  | restDeleteProduct (pid : Nat)
  | restGetImages (pid : Nat)
  | restDeleteImage (pid : Nat) (iid : Nat)
  | restCreateImage (pid : Nat) (src : String) (pos : Nat) (alt : String)
  | gqlGetMetafields (pid : Nat)
  | gqlMetafieldsSet (count : Nat)
  | restGetCollects (pid : Nat)
  | restDeleteCollect (cid : Nat)
  | restGetLocations
  | restInvConnect (item : Nat) (loc : Nat)
  | restInvSet (item : Nat) (loc : Nat) (qty : ℤ)
  | restInvDelete (item : Nat) (loc : Nat)
  | gqlBulkPriceUpdate (pid : Nat) (price : String) (compareAt : Option String)
  | sheetWriteBack (rowIndex : Nat) (pid : Nat)
deriving DecidableEq

/-- Whether a call mutates remote platform state.  The read queries and
the sheet write-back are not platform mutations. -/
def Call.isMutating : Call → Bool
  | .gqlDuplicate _ _ => true
  | .restUpdateProduct _ _ _ _ => true
  | .restDeleteProduct _ => true
  | .restDeleteImage _ _ => true
  | .restCreateImage _ _ _ _ => true
  | .gqlMetafieldsSet _ => true
  | .restDeleteCollect _ => true
  | .restInvConnect _ _ => true
  | .restInvSet _ _ _ => true
  | .restInvDelete _ _ => true
  | .gqlBulkPriceUpdate _ _ _ => true
  | _ => false

/-- Server-side result of the GraphQL query `sku:<sku>`: the products
having a variant whose stored sku is exactly the searched one, in
listing order, truncated to the page size requested by the caller. -/
def querySku (st : Store) (sku : String) (lim : Nat) : List SProduct :=
  (st.products.filter (fun p => p.variants.any (fun v => v.sku == sku))).take lim

/-- Client-side exact sku check of `find_product_by_sku_non_outlet`
(`src/src/sync.py` lines 276-278) over the first 100 fetched
variants. -/
def hasSkuTrim100 (p : SProduct) (sku : String) : Bool :=
  (p.variants.take 100).any (fun v => pyStrip v.sku == sku)

/-- Client-side exact sku check of `find_outlet_by_sku`
(`src/src/sync.py` lines 360-368), which fetches only the first 5
variants. -/
def hasSkuTrim5 (p : SProduct) (sku : String) : Bool :=
  (p.variants.take 5).any (fun v => pyStrip v.sku == sku)

/-- Embedding of `Shopify.find_product_by_sku_non_outlet`
(`src/src/sync.py` lines 251-279): first page of 10 sku-query results,
skipping any product whose handle ends in "-outlet", then requiring an
exact variant sku match. -/
def findProductBySkuNonOutlet (st : Store) (sku : String) : Option SProduct :=
  (querySku st sku 10).find?
    (fun p => !pyEndsWith p.handle "-outlet" && hasSkuTrim100 p sku)

/-- The outlet filter of `find_outlet_by_sku` (`src/src/sync.py` lines
341-347): the lowercased handle contains "outlet", or the lowercased
title contains "outlet", or the title ends with " - Outlet". -/
def isOutletIndicated (p : SProduct) : Bool :=
  pyContains (pyLower p.handle) "outlet" ||
    (pyContains (pyLower p.title) "outlet" || pyEndsWith p.title " - Outlet")

/-- Embedding of `Shopify.find_outlet_by_sku` (`src/src/sync.py` lines
296-383): first page of 20 sku-query results, keeping the first product
that the outlet filter accepts and that has an exact variant sku match
among its first 5 variants. -/
def findOutletBySku (st : Store) (sku : String) : Option SProduct :=
  (querySku st sku 20).find? (fun p => isOutletIndicated p && hasSkuTrim5 p sku)

/-- Embedding of `Shopify.find_product_by_handle` (`src/src/sync.py`
lines 281-294): handle query, first page of 5, exact handle match. -/
def findProductByHandle (st : Store) (h : String) : Option SProduct :=
  ((st.products.filter (fun p => p.handle == h)).take 5).find?
    (fun p => p.handle == h)

/-- Look up a product of the store by id. -/
def getProduct (st : Store) (pid : Nat) : Option SProduct :=
  st.products.find? (fun p => p.pid == pid)

/-- Decimal string of a natural number. -/
def natToStr (n : Nat) : String := ⟨natDigits n⟩

/-- Update one product of the store in place. -/
def mapProduct (st : Store) (pid : Nat) (f : SProduct → SProduct) : Store :=
  { st with products := st.products.map (fun p => if p.pid == pid then f p else p) }

/-- Embedding of `Shopify.delete_product` (`src/src/sync.py` lines
401-405) at the state level: the product disappears together with the
inventory levels of its variants and its collects. -/
def deleteProductModel (st : Store) (pid : Nat) : Store :=
  let invs := ((getProduct st pid).map (fun p => p.variants.map (·.invItem))).getD []
  { st with
    products := st.products.filter (fun p => !(p.pid == pid)),
    levels := st.levels.filter (fun e => !invs.contains e.1),
    collects := st.collects.filter (fun c => !(c.2 == pid)) }

/-- Embedding of `Shopify.update_product_basic` (`src/src/sync.py`
lines 407-418): sets handle, lifecycle state and tags over REST; the
server rejects a handle already taken by another product (the 422 that
the caller inspects for "taken"), and a missing product is a plain
error. -/
def updateProductBasic (st : Store) (pid : Nat) (handle : String)
    (status : PStatus) (tags : String) : Except String Store :=
  if (getProduct st pid).isNone then .error "not found"
  else if st.products.any (fun p => !(p.pid == pid) && p.handle == handle) then
    .error "handle taken"
  else
    .ok (mapProduct st pid
      (fun p => { p with handle := handle, status := status, tags := tags }))

/-- Embedding of `Shopify.product_duplicate` (`src/src/sync.py` lines
385-399) together with the platform behaviour the workflow relies on:
the duplicate materialises as a draft with fresh ids, the variants keep
sku and options, images, metafields and tags are copied, the collects
of the source are mirrored, and the inventory levels of the source
variants are inherited by the corresponding fresh inventory items (the
quirk documented at `src/src/sync.py` lines 759-762). -/
def productDuplicate (st : Store) (srcPid : Nat) (newTitle : String) :
    Except String (Store × Nat) :=
  match getProduct st srcPid with
  | none => .error "productDuplicate errors"
  | some src =>
    let base := st.nextId
    let n := src.variants.length
    let m := src.images.length
    let srcCollects := st.collects.filter (fun c => c.2 == srcPid)
    let newVars := src.variants.enum.map
      (fun iv => { iv.2 with vid := base + 1 + 2 * iv.1, invItem := base + 2 + 2 * iv.1 })
    let newImgs := src.images.enum.map
      (fun jim => { jim.2 with iid := base + 1 + 2 * n + jim.1 })
    let newCollects := srcCollects.enum.map
      (fun tc => (base + 1 + 2 * n + m + tc.1, base))
    let pairs := (src.variants.zip newVars).map (fun ov => (ov.1.invItem, ov.2.invItem))
    let inherited := (pairs.map (fun pr =>
      (st.levels.filter (fun e => e.1 == pr.1)).map
        (fun e => (pr.2, e.2.1, e.2.2)))).flatten
    let newP : SProduct :=
      { pid := base, title := newTitle, handle := "duplicate-" ++ natToStr base,
        status := .draft, tags := src.tags, variants := newVars,
        images := newImgs, metafields := src.metafields }
    .ok ({ st with
            products := st.products ++ [newP],
            levels := st.levels ++ inherited,
            collects := st.collects ++ newCollects,
            nextId := base + 1 + 2 * n + m + srcCollects.length + 1 }, base)

/-- The handle candidate tried at step `k` of the conflict loop of
`process_sku_group` (`src/src/sync.py` lines 656-669): the bare desired
handle first, then numeric suffixes. -/
def handleCandidate (base : String) (k : Nat) : String :=
  if k == 0 then base else base ++ "-" ++ natToStr k

/-- The handle-conflict loop: up to ten update attempts, retrying with
the next numeric suffix on a "taken" rejection and re-raising once the
suffix counter passes ten; any other failure propagates at once.
Returns the attempted calls and, on success, the new store and the
final handle. -/
def finalizeHandleGo (pid : Nat) (base : String) :
    Nat → Nat → Store → List Call × Except String (Store × String)
  | _, 0, _ => ([], .error "handle taken")
  | k, fuel + 1, st =>
    let cand := handleCandidate base k
    let c := Call.restUpdateProduct pid cand "active" ""
    match updateProductBasic st pid cand .active "" with
    | .ok st2 => ([c], .ok (st2, cand))
    | .error msg =>
      if msg == "handle taken" then
        let rest := finalizeHandleGo pid base (k + 1) fuel st
        (c :: rest.1, rest.2)
      else
        ([c], .error msg)

/-- The conflict loop entered at the bare handle with the budget the
code allows (candidates `base` through `base ++ "-9"`). -/
def finalizeHandle (st : Store) (pid : Nat) (base : String) :
    List Call × Except String (Store × String) :=
  finalizeHandleGo pid base 0 10 st

/-- Stable insertion of an image into a position-sorted list. -/
def insertByPos (x : SImage) : List SImage → List SImage
  | [] => [x]
  | y :: ys => if x.pos < y.pos then x :: y :: ys else y :: insertByPos x ys

/-- Stable sort of images by position, as `src_imgs.sort(key=position)`
does. -/
def sortByPos (l : List SImage) : List SImage :=
  l.foldl (fun acc x => insertByPos x acc) []

/-- Embedding of `Shopify.copy_images` (`src/src/sync.py` lines
466-495): read the source images and sort them by position, read the
destination images, delete every destination image, then re-create the
source images in order with 1-based positions and empty alt text.
There is no short-circuit of any kind. -/
def copyImages (st : Store) (srcPid destPid : Nat) : Store × List Call :=
  let srcImgs := sortByPos (((getProduct st srcPid).map (·.images)).getD [])
  let destImgs := ((getProduct st destPid).map (·.images)).getD []
  let deletes := destImgs.map (fun im => Call.restDeleteImage destPid im.iid)
  let creates := srcImgs.enum.map
    (fun iim => Call.restCreateImage destPid iim.2.src (iim.1 + 1) "")
  let nid := st.nextId
  let newImgs := srcImgs.enum.map
    (fun iim => SImage.mk (nid + iim.1) iim.2.src (iim.1 + 1) "")
  let st2 := mapProduct st destPid (fun p => { p with images := newImgs })
  ({ st2 with nextId := nid + srcImgs.length },
    [Call.restGetImages srcPid, Call.restGetImages destPid] ++ deletes ++ creates)

/-- Embedding of `Shopify.copy_metafields` (`src/src/sync.py` lines
497-525): read the source metafields, return at once when there are
none, else upsert them onto the destination in chunks of 20. -/
def copyMetafields (st : Store) (srcPid destPid : Nat) : Store × List Call :=
  let mfs := ((getProduct st srcPid).map (·.metafields)).getD []
  if mfs.isEmpty then (st, [Call.gqlGetMetafields srcPid])
  else
    let chunkCount := (mfs.length + 19) / 20
    let sets := (List.range chunkCount).map
      (fun i => Call.gqlMetafieldsSet (min 20 (mfs.length - 20 * i)))
    (mapProduct st destPid (fun p => { p with metafields := mfs }),
      Call.gqlGetMetafields srcPid :: sets)

/-- Embedding of `Shopify.delete_collects` (`src/src/sync.py` lines
527-535): list the manual collects of the product and delete each. -/
def deleteCollects (st : Store) (pid : Nat) : Store × List Call :=
  let cs := st.collects.filter (fun c => c.2 == pid)
  ({ st with collects := st.collects.filter (fun c => !(c.2 == pid)) },
    Call.restGetCollects pid :: cs.map (fun c => Call.restDeleteCollect c.1))

/-- Embedding of `Shopify.variants_bulk_update_prices` (`src/src/sync.py`
lines 440-464), with the per-item error report of the server as an
explicit argument: the variants are fetched, an empty variant list
returns without a mutation, otherwise one bulk mutation is issued with
the same price pair for every variant; a non-empty error report is
logged (second component) and nothing else happens — no per-variant
fallback call, no raise. -/
def variantsBulkUpdatePrices (vars : List SVariant) (pid : Nat) (price : String)
    (cmp : Option String) (errs : List String) :
    List Call × Bool × Except String Unit :=
  (Call.gqlGetVariants pid ::
      (if vars.isEmpty then [] else [Call.gqlBulkPriceUpdate pid price cmp]),
    !errs.isEmpty, .ok ())

/-- Embedding of `Shopify.get_location_by_name` (`src/src/sync.py`
lines 537-542), with the run-level cache left out: every lookup lists
the locations (a read) and resolves the name exactly. -/
def getLocationByName (st : Store) (name : String) : Option (Nat × String) :=
  st.locations.find? (fun l => l.2 == name)

/-- Embedding of `Shopify.inventory_connect` (`src/src/sync.py` lines
544-554): the connect call is issued; when the level already exists the
server rejection is swallowed and the state is unchanged, else a level
at zero appears. -/
def inventoryConnect (st : Store) (item loc : Nat) : Store × List Call :=
  if st.levels.any (fun e => e.1 == item && e.2.1 == loc) then
    (st, [Call.restInvConnect item loc])
  else
    ({ st with levels := setLevelList st.levels item loc 0 },
      [Call.restInvConnect item loc])

/-- Embedding of `Shopify.inventory_set` (`src/src/sync.py` lines
556-584): set the available quantity; when the item is not connected
the first set is rejected with a 422, the code connects and retries the
set, so the call trace shows set, connect, set. -/
def inventorySet (st : Store) (item loc : Nat) (q : ℤ) : Store × List Call :=
  if st.levels.any (fun e => e.1 == item && e.2.1 == loc) then
    ({ st with levels := setLevelList st.levels item loc q },
      [Call.restInvSet item loc q])
  else
    ({ st with levels := setLevelList st.levels item loc q },
      [Call.restInvSet item loc q, Call.restInvConnect item loc,
        Call.restInvSet item loc q])

/-- Embedding of `Shopify.inventory_delete_level` (`src/src/sync.py`
lines 586-594): remove the level; an absent level is treated as
success. -/
def inventoryDeleteLevel (st : Store) (item loc : Nat) : Store × List Call :=
  ({ st with levels := delLevelList st.levels item loc },
    [Call.restInvDelete item loc])

/-- Sequential state-and-trace fold over a list of items. -/
def foldSteps {α : Type} (f : Store → α → Store × List Call) (st : Store)
    (xs : List α) : Store × List Call :=
  xs.foldl (fun acc x => let r := f acc.1 x; (r.1, acc.2 ++ r.2)) (st, [])

/-- One Google-Sheet row of a SKU-group, with the column aliases
already folded (`qta` stands for the `qta`-or-`qty` chain of the
code). -/
structure SheetRow where
  sku : Option String
  online : Option String
  prezzoPieno : Option String
  prezzoScontato : Option String
  taglia : Option String
  qta : Option String
  rowIndex : Nat
deriving DecidableEq

/-- Run configuration: the two location names (an unset or empty
environment variable is `none`, matching the falsiness test of the
code) and the per-item error report the bulk price mutation will come
back with. -/
structure Cfg where
  promoName : Option String
  magName : Option String
  bulkErrs : List String
deriving DecidableEq

/-- The quantity cell after the `row.get("qta") or row.get("qty") or
"0"` chain: a missing or empty cell reads as "0". -/
def qtaCell (row : SheetRow) : String :=
  match row.qta with
  | some s => if s == "" then "0" else s
  | none => "0"

/-- Embedding of the target-variant search of `process_sku_group`
(`src/src/sync.py` lines 730-750): the first variant whose stripped sku
matches; when a size is given it must also carry an option named size
or taglia (case-insensitive) whose stripped value matches exactly. -/
def findTargetVariant (vars : List SVariant) (sku taglia : String) :
    Option SVariant :=
  if taglia == "" then
    vars.find? (fun v => pyStrip v.sku == sku)
  else
    vars.find? (fun v =>
      pyStrip v.sku == sku &&
        v.options.any (fun o =>
          (pyLower o.1 == "size" || pyLower o.1 == "taglia") &&
            pyStrip o.2 == taglia))

/-- The promotional-location phase of the inventory step
(`src/src/sync.py` lines 705-757): connect every variant of the outlet
to the location, zero every one of them there, then set the
row-specified quantity on the matching variant of each row, skipping a
row whose variant cannot be found. -/
def inventoryPromoPhase (sku : String) (loc : Nat) (vars : List SVariant)
    (rows : List SheetRow) (st : Store) : Store × List Call :=
  let c := foldSteps (fun s v => inventoryConnect s v.invItem loc) st vars
  let z := foldSteps (fun s v => inventorySet s v.invItem loc 0) c.1 vars
  let r := foldSteps (fun s row =>
    let taglia := pyStrip (row.taglia.getD "")
    let qta := parseQta (qtaCell row)
    match findTargetVariant vars sku taglia with
    | some tv => inventorySet s tv.invItem loc qta
    | none => (s, [])) z.1 rows
  (r.1, c.2 ++ z.2 ++ r.2)

/-- The warehouse-location phase of the inventory step
(`src/src/sync.py` lines 763-787): for every variant, zero the level
there and then delete it, in that order. -/
def inventoryMagPhase (loc : Nat) (vars : List SVariant) (st : Store) :
    Store × List Call :=
  foldSteps (fun s v =>
    let z := inventorySet s v.invItem loc 0
    let d := inventoryDeleteLevel z.1 v.invItem loc
    (d.1, z.2 ++ d.2)) st vars

/-- The full inventory step of `process_sku_group` (`src/src/sync.py`
lines 698-789): the promotional phase runs when the location name is
configured and resolves, then the warehouse phase likewise; each
resolution lists the locations, each phase re-reads the outlet
variants. -/
def inventoryStep (cfg : Cfg) (st : Store) (outletPid : Nat) (sku : String)
    (rows : List SheetRow) : Store × List Call :=
  let promo : Store × List Call :=
    match cfg.promoName with
    | none => (st, [])
    | some nm =>
      match getLocationByName st nm with
      | none => (st, [Call.restGetLocations])
      | some l =>
        let vars := ((getProduct st outletPid).map (·.variants)).getD []
        let ph := inventoryPromoPhase sku l.1 vars rows st
        (ph.1, Call.restGetLocations :: Call.gqlGetVariants outletPid :: ph.2)
  let mag : Store × List Call :=
    match cfg.magName with
    | none => (promo.1, [])
    | some nm =>
      match getLocationByName promo.1 nm with
      | none => (promo.1, [Call.restGetLocations])
      | some l =>
        let vars := ((getProduct promo.1 outletPid).map (·.variants)).getD []
        let ph := inventoryMagPhase l.1 vars promo.1
        (ph.1, Call.restGetLocations :: Call.gqlGetVariants outletPid :: ph.2)
  (mag.1, promo.2 ++ mag.2)

instance {ε α : Type} [DecidableEq ε] [DecidableEq α] :
    DecidableEq (Except ε α) := fun a b =>
  match a, b with
  | .ok x, .ok y =>
    if h : x = y then .isTrue (by rw [h]) else .isFalse (fun hc => by cases hc; exact h rfl)
  | .error x, .error y =>
    if h : x = y then .isTrue (by rw [h]) else .isFalse (fun hc => by cases hc; exact h rfl)
  | .ok _, .error _ => .isFalse (fun hc => by cases hc)
  | .error _, .ok _ => .isFalse (fun hc => by cases hc)

/-- Result of one SKU-group: the returned outcome or the raised error,
the store afterwards, and the calls issued along the way. -/
structure ProcResult where
  res : Except String ProcOutcome
  store : Store
  calls : List Call
deriving DecidableEq

/-- The creation pipeline of `process_sku_group` (`src/src/sync.py`
lines 651-801), entered after the skip checks: duplicate, finalize
handle and state, copy images, copy metafields, clear collects, apply
the price pair to every variant, reconcile inventory, write the new id
back for every row of the group. -/
def createOutlet (cfg : Cfg) (sku : String) (rows : List SheetRow)
    (sourcePid : Nat) (outletHandle outletTitle : String) (price : String)
    (cmp : Option String) (st : Store) (acc : List Call) : ProcResult :=
  match productDuplicate st sourcePid outletTitle with
  | .error e => ⟨.error e, st, acc ++ [Call.gqlDuplicate sourcePid outletTitle]⟩
  | .ok (st1, newPid) =>
    let acc1 := acc ++ [Call.gqlDuplicate sourcePid outletTitle]
    let fh := finalizeHandle st1 newPid outletHandle
    match fh.2 with
    | .error e => ⟨.error e, st1, acc1 ++ fh.1⟩
    | .ok (st2, _) =>
      let acc2 := acc1 ++ fh.1
      let im := copyImages st2 sourcePid newPid
      let mf := copyMetafields im.1 sourcePid newPid
      let dc := deleteCollects mf.1 newPid
      let vars := ((getProduct dc.1 newPid).map (·.variants)).getD []
      let bp := variantsBulkUpdatePrices vars newPid price cmp cfg.bulkErrs
      let inv := inventoryStep cfg dc.1 newPid sku rows
      let wb := rows.map (fun r => Call.sheetWriteBack r.rowIndex newPid)
      ⟨.ok .success, inv.1, acc2 ++ im.2 ++ mf.2 ++ dc.2 ++ bp.1 ++ inv.2 ++ wb⟩

/-- Embedding of `process_sku_group` (`src/src/sync.py` lines 600-801):
compute the price pair from the first row, resolve the source by sku
(skipping the group when none matches), derive the outlet handle and
title, look for an existing outlet by sku — an active one ends the
group as already-active with nothing mutated, a draft is deleted — and
then run the creation pipeline. -/
def processSkuGroup (cfg : Cfg) (st : Store) (sku : String)
    (rows : List SheetRow) : ProcResult :=
  match rows with
  | [] => ⟨.error "IndexError", st, []⟩
  | first :: _ =>
    let pair := syncPricePair first.prezzoPieno first.prezzoScontato
    let c1 := [Call.gqlProductsBySku sku]
    match findProductBySkuNonOutlet st sku with
    | none => ⟨.ok .skipNoSource, st, c1⟩
    | some source =>
      let oHandle := outletHandleRule source.handle
      let oTitle := outletTitleRule source.title
      let c2 := c1 ++ [Call.gqlProductsBySku sku]
      match findOutletBySku st sku with
      | some p =>
        if p.status = PStatus.active then
          ⟨.ok .skipAlreadyActive, st, c2⟩
        else
          createOutlet cfg sku rows source.pid oHandle oTitle pair.1 pair.2
            (deleteProductModel st p.pid) (c2 ++ [Call.restDeleteProduct p.pid])
      | none => createOutlet cfg sku rows source.pid oHandle oTitle pair.1 pair.2 st c2

/-- Embedding of the orchestrator loop of `main` in `src/src/sync.py`
(lines 865-879): every group runs inside a try block against the store
left behind by the previous groups; an exception is recorded as the
error outcome of that group and processing continues with the next
group.  Returns the final store, the per-group outcomes in order, the
aggregate counters and the concatenated call trace. -/
def runGroups (cfg : Cfg) :
    Store → List (String × List SheetRow) →
      Store × List GOutcome × RunStats × List Call
  | st, [] => (st, [], ⟨0, 0, 0, 0, 0⟩, [])
  | st, g :: rest =>
    let r := processSkuGroup cfg st g.1 g.2
    let o := resOutcome r.res
    let nxt := runGroups cfg r.store rest
    (nxt.1, o :: nxt.2.1, addStat nxt.2.2.1 o g.2.length, r.calls ++ nxt.2.2.2)

/-- Embedding of `_truthy_si` (`src/src/sync.py` lines 62-70) on the
string cells the sheet delivers. -/
def truthySi (s : String) : Bool :=
  let t := pyLower (pyStrip s)
  t == "si" || t == "sì" || t == "true" || t == "1" || t == "x" ||
    t == "ok" || t == "yes"

/-- The row filter of `main` (`src/src/sync.py` lines 816-833): keep
rows with an affirmative online flag and a positive parsed quantity. -/
def selectRows (rows : List SheetRow) : List SheetRow :=
  rows.filter (fun r => truthySi (r.online.getD "") && 0 < parseQta (qtaCell r))

/-- Append a row to its SKU-group, keeping first-appearance order of
the groups as a Python dict does. -/
def insertGroup (acc : List (String × List SheetRow)) (sku : String)
    (r : SheetRow) : List (String × List SheetRow) :=
  if acc.any (fun g => g.1 == sku) then
    acc.map (fun g => if g.1 == sku then (g.1, g.2 ++ [r]) else g)
  else
    acc ++ [(sku, [r])]

/-- The grouping of `main` (`src/src/sync.py` lines 842-851): group the
selected rows by stripped sku, skipping rows with an empty sku. -/
def groupBySku (rows : List SheetRow) : List (String × List SheetRow) :=
  rows.foldl (fun acc r =>
    let sku := pyStrip (r.sku.getD "")
    if sku == "" then acc else insertGroup acc sku r) []

/-- Embedding of `main` in `src/src/sync.py` (lines 803-889).  Without
the apply flag the function logs a dry-run notice and returns at once:
no sheet read, no resolution logic, no remote call of any kind.  With
the flag it reads the sheet, filters and groups the rows and drives
every group through `processSkuGroup`. -/
def syncMain (apply : Bool) (cfg : Cfg) (st : Store) (rows : List SheetRow) :
    Store × List GOutcome × RunStats × List Call :=
  if !apply then (st, [], ⟨0, 0, 0, 0, 0⟩, [])
  else runGroups cfg st (groupBySku (selectRows rows))

/-- The Product_Id cell of a `fix_prices.py` row, already shaped: a
Shopify product gid, or a bare handle string (the code branches on the
`gid://shopify/Product/` prefix). -/
inductive ProductRef
  | gid (pid : Nat)
  | handle (h : String)
deriving DecidableEq

/-- One sheet row as `fix_prices.py` reads it: the Prezzo High and
Prezzo Outlet cells and the Product_Id cell (`none` for an empty
cell). -/
structure FixRow where
  prezzoHigh : Option String
  prezzoOutlet : Option String
  productId : Option ProductRef
deriving DecidableEq

/-- Outcome strings of `fix_prices_for_sku`. -/
inductive FixOutcome
  | success
  | successDry
  | skipNoProductId
  | skipNotFound
  | skipDraft
  | error
deriving DecidableEq

/-- Embedding of `fix_prices_for_sku` (`src/fix_prices.py` lines
53-160): compute the corrected price pair, require the Product_Id cell,
resolve the outlet by gid (assumed active when its variants resolve) or
by handle (skipped unless active), fetch the variants, and then either
log the intended update and stop (dry run) or issue the bulk price
update.  The underlying store is never changed; only the call trace
distinguishes the two modes. -/
def fixPricesForSku (st : Store) (first : FixRow) (dryRun : Bool) :
    FixOutcome × List Call :=
  let pair := fixPricePair first.prezzoHigh first.prezzoOutlet
  match first.productId with
  | none => (.skipNoProductId, [])
  | some (.gid pid) =>
    let vars := ((getProduct st pid).map (·.variants)).getD []
    let c1 := [Call.gqlGetVariants pid]
    if vars.isEmpty then (.skipNotFound, c1)
    else
      let c2 := c1 ++ [Call.gqlGetVariants pid]
      if dryRun then (.successDry, c2)
      else
        (.success, c2 ++ [Call.gqlGetVariants pid,
          Call.gqlBulkPriceUpdate pid pair.1 (some pair.2)])
  | some (.handle h) =>
    let c1 := [Call.gqlProductsByHandle h]
    match findProductByHandle st h with
    | none => (.skipNotFound, c1)
    | some outlet =>
      if !(outlet.status = PStatus.active) then (.skipDraft, c1)
      else
        let vars := outlet.variants
        let c2 := c1 ++ [Call.gqlGetVariants outlet.pid]
        if vars.isEmpty then (.skipNotFound, c2)
        else if dryRun then (.successDry, c2)
        else
          (.success, c2 ++ [Call.gqlGetVariants outlet.pid,
            Call.gqlBulkPriceUpdate outlet.pid pair.1 (some pair.2)])

/-- Concrete two-variant outlet fixtures for the inventory step. -/
def c2Cfg : Cfg := ⟨some "Promo", some "Mag", []⟩

def c2V1 : SVariant := ⟨11, "S", [("Taglia", "40")], 101⟩

def c2V2 : SVariant := ⟨12, "S", [("Taglia", "41")], 102⟩

def c2Store : Store :=
  ⟨[⟨1, "Shoe", "shoe-outlet", PStatus.active, "", [c2V1, c2V2], [], []⟩],
    [(101, 5, 3), (102, 5, 2)], [], [(7, "Promo"), (5, "Mag")], 50⟩

def c2Row : SheetRow := ⟨some "S", some "SI", none, none, some "40", some "5", 2⟩

/-!
Basic lemmas about the string utilities.
-/

theorem natDigitsF_spec (fuel : Nat) : ∀ n, n < fuel →
    (natDigitsF fuel n).all Char.isDigit = true ∧ natDigitsF fuel n ≠ [] := by
  induction fuel with
  | zero => intro n h; omega
  | succ f ih =>
    intro n _
    by_cases h10 : n < 10
    · constructor
      · simp only [natDigitsF, if_pos h10, List.all_cons, List.all_nil, Bool.and_true]
        interval_cases n <;> decide
      · simp [natDigitsF, if_pos h10]
    · have hn : 0 < n := by omega
      have hdiv : n / 10 < f := by
        have := Nat.div_lt_self hn (by omega : 1 < 10)
        omega
      obtain ⟨hall, hne⟩ := ih (n / 10) hdiv
      constructor
      · simp only [natDigitsF, if_neg h10, List.all_append, hall, List.all_cons,
          List.all_nil, Bool.and_true, Bool.true_and]
        have : n % 10 < 10 := Nat.mod_lt _ (by omega)
        interval_cases h : n % 10 <;> decide
      · simp [natDigitsF, if_neg h10]

theorem natDigits_all_digit (n : Nat) : (natDigits n).all Char.isDigit = true :=
  (natDigitsF_spec (n + 1) n (Nat.lt_succ_self n)).1

theorem natDigits_ne_nil (n : Nat) : natDigits n ≠ [] :=
  (natDigitsF_spec (n + 1) n (Nat.lt_succ_self n)).2

theorem natDigits_lt_ten (d : Nat) (h : d < 10) :
    natDigits d = [Char.ofNat (48 + d)] := by
  simp [natDigits, natDigitsF, if_pos h]

theorem pyFormat2_shape (num : ℤ) (e : ℕ) :
    isTwoDecString (pyFormat2 num e) = true := by
  rw [show pyFormat2 num e =
    ⟨natDigits ((roundHalfEvenScaled (100 * num) (10 ^ e)).toNat / 100) ++
      '.' :: natDigits ((roundHalfEvenScaled (100 * num) (10 ^ e)).toNat % 100 / 10) ++
        natDigits ((roundHalfEvenScaled (100 * num) (10 ^ e)).toNat % 100 % 10)⟩ from rfl]
  set n := (roundHalfEvenScaled (100 * num) (10 ^ e)).toNat with hn
  have h1 : n % 100 / 10 < 10 := by omega
  have h2 : n % 100 % 10 < 10 := by omega
  rw [natDigits_lt_ten _ h1, natDigits_lt_ten _ h2]
  unfold isTwoDecString
  simp only [List.append_assoc, List.cons_append, List.nil_append]
  rw [List.reverse_append]
  simp only [List.reverse_cons, List.reverse_nil, List.nil_append, List.cons_append,
    List.append_assoc, List.nil_append]
  have hd1 : (Char.ofNat (48 + n % 100 % 10)).isDigit = true := by
    interval_cases h : n % 100 % 10 <;> decide
  have hd2 : (Char.ofNat (48 + n % 100 / 10)).isDigit = true := by
    interval_cases h : n % 100 / 10 <;> decide
  simp only [hd1, hd2, Bool.true_and]
  have h3 := natDigits_all_digit (n / 100)
  have h4 := natDigits_ne_nil (n / 100)
  rw [Bool.and_eq_true]
  refine ⟨?_, ?_⟩
  · simp only [Bool.not_eq_true']
    rw [List.isEmpty_eq_false]
    simp only [ne_eq, List.reverse_eq_nil_iff]
    exact h4
  · rw [List.all_reverse]
    exact h3

theorem rep9_dropWhile_space (n : ℕ) :
    (List.replicate n '9').dropWhile pyIsSpace = List.replicate n '9' := by
  cases n with
  | zero => rfl
  | succ m => simp [List.replicate_succ, List.dropWhile_cons, pyIsSpace]

theorem rep9_filter_pricechars (n : ℕ) :
    (List.replicate n '9').filter (fun c => c.isDigit || c == ',' || c == '.') =
      List.replicate n '9' := by
  induction n with
  | zero => rfl
  | succ m ih => simp [List.replicate_succ, List.filter_cons, ih]

theorem rep9_count_ne (n : ℕ) (c : Char) (h : c ≠ '9') :
    (List.replicate n '9').count c = 0 := by
  induction n with
  | zero => rfl
  | succ m ih =>
    rw [List.replicate_succ, List.count_cons]
    simp only [ih]
    have : ('9' == c) = false := by
      simp only [beq_eq_false_iff_ne, ne_eq]
      exact fun hc => h hc.symm
    simp [this]

theorem rep9_takeWhile_nodot (n : ℕ) :
    (List.replicate n '9').takeWhile (fun c => !(c == '.')) =
      List.replicate n '9' := by
  induction n with
  | zero => rfl
  | succ m ih => simp [List.replicate_succ, List.takeWhile_cons, ih]

theorem rep9_dropWhile_nodot (n : ℕ) :
    (List.replicate n '9').dropWhile (fun c => !(c == '.')) = [] := by
  induction n with
  | zero => rfl
  | succ m ih => simp [List.replicate_succ, List.dropWhile_cons, ih]

theorem rep9_all_digit (n : ℕ) :
    (List.replicate n '9').all Char.isDigit = true := by
  induction n with
  | zero => rfl
  | succ m ih => simp [List.replicate_succ, ih]

theorem natOfDigits_rep9 (n : ℕ) :
    natOfDigits (List.replicate n '9') = 10 ^ n - 1 := by
  induction n with
  | zero => rfl
  | succ m ih =>
    have hrep : List.replicate (m + 1) '9' = List.replicate m '9' ++ ['9'] := by
      rw [← List.replicate_succ']
    rw [natOfDigits, hrep, List.foldl_append]
    have : List.foldl (fun acc c => acc * 10 + (c.toNat - 48))
        0 (List.replicate m '9') = 10 ^ m - 1 := ih
    rw [this]
    have h1 : (1 : ℕ) ≤ 10 ^ m := Nat.one_le_pow _ _ (by omega)
    simp only [List.foldl_cons, List.foldl_nil]
    have : ('9' : Char).toNat - 48 = 9 := by decide
    rw [this, pow_succ]
    omega


theorem parse_nines (n : ℕ) : parsePyFloatChars (List.replicate (n + 1) '9') =
    some ((((10 : ℕ) ^ (n + 1) - 1 : ℕ) : ℤ), 0) := by
  simp only [parsePyFloatChars]
  rw [rep9_dropWhile_space, List.reverse_replicate, rep9_dropWhile_space,
    List.reverse_replicate]
  have hhead : (List.replicate (n + 1) '9').headD ' ' = '9' := by
    rw [List.replicate_succ]; rfl
  rw [hhead]
  simp only [show ('9' == '-') = false from rfl, show ('9' == '+') = false from rfl,
    Bool.false_or, if_false, Bool.false_eq_true]
  rw [rep9_takeWhile_nodot, rep9_dropWhile_nodot]
  rw [rep9_all_digit]
  have hne : (List.replicate (n + 1) '9').isEmpty = false := by
    rw [List.replicate_succ]; rfl
  rw [hne]
  simp only [List.tail_nil, List.all_nil, List.isEmpty_nil, Bool.and_true,
    Bool.true_and, Bool.or_true, Bool.not_false, Bool.true_or, Bool.and_self,
    if_true, List.length_nil, pow_zero, mul_one, natOfDigits_rep9]
  rw [show natOfDigits [] = 0 from rfl]
  push_cast
  ring_nf

theorem clean_price_nines (n : ℕ)
    (h : (2 ^ 1024 - 2 ^ 970 : ℕ) ≤ 10 ^ (n + 1) - 1) :
    cleanPrice (some ⟨List.replicate (n + 1) '9'⟩) = some "inf" := by
  have hstripD : (pyStrip ⟨List.replicate (n + 1) '9'⟩).data =
      List.replicate (n + 1) '9' := by
    show ((((List.replicate (n + 1) '9').dropWhile pyIsSpace).reverse.dropWhile
      pyIsSpace).reverse) = _
    rw [rep9_dropWhile_space, List.reverse_replicate, rep9_dropWhile_space,
      List.reverse_replicate]
  have hempty : (List.replicate (n + 1) '9').isEmpty = false := by
    rw [List.replicate_succ]; rfl
  simp only [cleanPrice]
  rw [hstripD, hempty]
  rw [if_neg (by decide : ¬(false = true))]
  rw [rep9_filter_pricechars]
  simp only [cleanPriceS3]
  rw [rep9_count_ne _ ',' (by decide), rep9_count_ne _ '.' (by decide)]
  rw [if_neg (by decide : ¬((((0 : ℕ) == 1) && ((0 : ℕ) == 0)) = true))]
  rw [parse_nines]
  show some (pyFloatFormat2 (((10 : ℕ) ^ (n + 1) - 1 : ℕ) : ℤ) 0) = some "inf"
  simp only [pyFloatFormat2, dblOverflowScaled, pow_zero, mul_one]
  rw [if_pos (by exact_mod_cast h)]

/-- Claim C10, amended: the price cleaner is a total function and every
value it returns is either absent, a string of digits with a dot and
exactly two decimal digits, or the string "inf" that CPython produces
for a cell whose numeric value reaches the double overflow bound.  The
claim as frozen omits the "inf" outcome. -/
theorem clean_price_total_shape (v : Option String) :
    (cleanPrice v).elim True
      (fun out => isTwoDecString out = true ∨ out = "inf") := by
  cases v with
  | none => exact trivial
  | some raw =>
    simp only [cleanPrice]
    split
    · exact trivial
    · split
      · exact trivial
      · simp only [Option.elim]
        unfold pyFloatFormat2
        split
        · right; rfl
        · left; exact pyFormat2_shape _ _

/-- Claim C10, counterexample to the frozen wording: a cell of 310
nines parses to a value beyond the double range, so `_clean_price`
returns the string "inf", which is not a two-decimal string. -/
theorem clean_price_inf_counterexample :
    cleanPrice (some ⟨List.replicate 310 '9'⟩) = some "inf" ∧
      isTwoDecString "inf" = false := by
  constructor
  · have h310 : (310 : ℕ) = 309 + 1 := by norm_num
    rw [h310]
    exact clean_price_nines 309 (by norm_num)
  · decide

theorem startsList_self_append (p rest : List Char) :
    startsList p (p ++ rest) = true := by
  induction p with
  | nil => rfl
  | cons c cs ih => simp [startsList, ih]

theorem pyEndsWith_append (t pat : String) :
    pyEndsWith (t ++ pat) pat = true := by
  obtain ⟨l⟩ := t
  obtain ⟨q⟩ := pat
  show startsList q.reverse (l ++ q).reverse = true
  rw [List.reverse_append]
  exact startsList_self_append _ _

/-- Claim C4, counterexample to the frozen wording: in the main
workflow a missing full price is not mirrored — the compare-at member
of the applied pair stays empty instead of repeating the sale price. -/
theorem sync_price_pair_counterexample :
    syncPricePair none (some "39.90") = ("39.90", none) ∧
      ¬ syncPricePair none (some "39.90") = ("39.90", some "39.90") := by
  constructor
  · decide
  · decide

/-- Claim C4, amended: the sale-side fallback and the pass-through of a
fully specified pair hold in both programs, and the full price of the
claim's fallback rule holds only in `fix_prices.py` (which also mirrors
a "0.00" full price); `process_sku_group` leaves the compare-at price
empty when the sheet's full price is absent, and an entirely empty pair
becomes ("0.00", none) there. -/
theorem price_fallback_rules :
    (∀ pc sc s, cleanPrice sc = none → cleanPrice pc = some s →
      syncPricePair pc sc = (s, some s)) ∧
    (∀ pc sc p s, cleanPrice pc = some p → cleanPrice sc = some s →
      syncPricePair pc sc = (s, some p)) ∧
    (∀ pc sc s, cleanPrice pc = none → cleanPrice sc = some s →
      syncPricePair pc sc = (s, none)) ∧
    (∀ pc sc, cleanPrice pc = none → cleanPrice sc = none →
      syncPricePair pc sc = ("0.00", none)) ∧
    (∀ hc oc p, cleanPrice hc = some p → cleanPrice oc = none →
      fixPricePair hc oc = (p, p)) ∧
    (∀ hc oc s, cleanPrice hc = none → cleanPrice oc = some s →
      fixPricePair hc oc = (s, s)) ∧
    (∀ hc oc p s, cleanPrice hc = some p → cleanPrice oc = some s →
      ¬ p = "0.00" → fixPricePair hc oc = (s, p)) ∧
    (∀ hc oc s, cleanPrice hc = some "0.00" → cleanPrice oc = some s →
      fixPricePair hc oc = (s, s)) := by
  refine ⟨?_, ?_, ?_, ?_, ?_, ?_, ?_, ?_⟩
  · intro pc sc s h1 h2; simp [syncPricePair, h1, h2]
  · intro pc sc p s h1 h2; simp [syncPricePair, h1, h2]
  · intro pc sc s h1 h2; simp [syncPricePair, h1, h2]
  · intro pc sc h1 h2; simp [syncPricePair, h1, h2]
  · intro hc oc p h1 h2
    simp only [fixPricePair, h1, h2]
    split <;> rfl
  · intro hc oc s h1 h2; simp [fixPricePair, h1, h2]
  · intro hc oc p s h1 h2 h3
    have : (p == "0.00") = false := by
      simp only [beq_eq_false_iff_ne, ne_eq]; exact h3
    simp [fixPricePair, h1, h2, this]
  · intro hc oc s h1 h2; simp [fixPricePair, h1, h2]

/-- Claim C4, witness instances of the amended rules at the cells of
the spec's own example. -/
theorem price_fallback_rules_witness :
    syncPricePair (some "59.90") none = ("59.90", some "59.90") ∧
      syncPricePair (some "59.90") (some "39.90") = ("39.90", some "59.90") ∧
      syncPricePair none (some "39.90") = ("39.90", none) ∧
      fixPricePair none (some "39.90") = ("39.90", "39.90") ∧
      fixPricePair (some "59.90") (some "39.90") = ("39.90", "59.90") := by
  refine ⟨?_, ?_, ?_, ?_, ?_⟩
  · exact price_fallback_rules.1 (some "59.90") none "59.90" (by decide) (by decide)
  · exact price_fallback_rules.2.1 (some "59.90") (some "39.90") "59.90" "39.90"
      (by decide) (by decide)
  · exact price_fallback_rules.2.2.1 none (some "39.90") "39.90" (by decide) (by decide)
  · exact price_fallback_rules.2.2.2.2.2.1 none (some "39.90") "39.90"
      (by decide) (by decide)
  · exact price_fallback_rules.2.2.2.2.2.2.1 (some "59.90") (some "39.90")
      "59.90" "39.90" (by decide) (by decide) (by decide)

/-- Claim C6, counterexample to the frozen wording: the handle rule is
applied unconditionally, so re-applying it to an already suffixed
handle appends the suffix again instead of returning it unchanged. -/
theorem outlet_handle_rule_counterexample :
    outletHandleRule (outletHandleRule "ajax-sneaker") =
        "ajax-sneaker-outlet-outlet" ∧
      ¬ outletHandleRule (outletHandleRule "ajax-sneaker") =
        outletHandleRule "ajax-sneaker" := by
  constructor
  · decide
  · decide

/-- Claim C6, amended: the derived handle is always the source handle
with "-outlet" appended and the derived title rule is idempotent, but
the handle rule itself is not an idempotent function; the workflow
avoids double suffixes only because the source resolver never returns a
product whose handle already ends in "-outlet". -/
theorem outlet_naming_rules :
    (∀ h, outletHandleRule h = h ++ "-outlet") ∧
    (∀ t, outletTitleRule (outletTitleRule t) = outletTitleRule t) ∧
    (∀ st sku p, findProductBySkuNonOutlet st sku = some p →
      pyEndsWith p.handle "-outlet" = false) := by
  refine ⟨fun h => rfl, ?_, ?_⟩
  · intro t
    unfold outletTitleRule
    split
    · simp only [*]
    · rw [if_pos (pyEndsWith_append t " - Outlet")]
  · intro st sku p hfind
    have := List.find?_some hfind
    have hband := this
    rw [Bool.and_eq_true] at hband
    have := hband.1
    simp only [Bool.not_eq_true'] at this
    exact this

/-- Claim C6, witness: the naming rules evaluated on the spec's example
handle and on a store where the source resolver returns a product. -/
theorem outlet_naming_rules_witness :
    outletHandleRule "ajax-sneaker" = "ajax-sneaker-outlet" ∧
      outletTitleRule (outletTitleRule "Ajax Sneaker") =
        outletTitleRule "Ajax Sneaker" ∧
      pyEndsWith
        (SProduct.mk 1 "Ajax Sneaker" "ajax-sneaker" .active ""
          [SVariant.mk 101 "SKU1" [] 201] [] []).handle "-outlet" = false := by
  refine ⟨outlet_naming_rules.1 "ajax-sneaker", outlet_naming_rules.2.1 "Ajax Sneaker", ?_⟩
  exact outlet_naming_rules.2.2
    (Store.mk [SProduct.mk 1 "Ajax Sneaker" "ajax-sneaker" .active ""
      [SVariant.mk 101 "SKU1" [] 201] [] []] [] [] [] 1000) "SKU1"
    (SProduct.mk 1 "Ajax Sneaker" "ajax-sneaker" .active ""
      [SVariant.mk 101 "SKU1" [] 201] [] [])
    (by decide)

theorem syncRequestAux_always429 (transport : Nat → HttpResp) (ra : ℚ)
    (ht : ∀ i, transport i = ⟨429, some ra⟩) :
    ∀ m a, syncRequestAux transport a (m + 1) =
      (List.replicate (m + 1) ra, m + 1, some ⟨429, some ra⟩) := by
  intro m
  induction m with
  | zero =>
    intro a
    simp [syncRequestAux, ht a]
  | succ k ih =>
    intro a
    have hstep : syncRequestAux transport a (k + 1 + 1) =
        ((transport a).retryAfter.getD 1 ::
            (syncRequestAux transport (a + 1) (k + 1)).1,
          (syncRequestAux transport (a + 1) (k + 1)).2.1 + 1,
          some ((syncRequestAux transport (a + 1) (k + 1)).2.2.getD
            (transport a))) := by
      conv_lhs => rw [syncRequestAux]
      rw [ht a]
      rfl
    rw [hstep, ih (a + 1), ht a]
    simp [List.replicate_succ]

/-- The remaining backoff schedule of `_rest` when it enters a retry
with current backoff `b`. -/
def backoffSeq (b : ℚ) : ℕ → ℚ
  | 0 => b
  | i + 1 => backoffSeq (min (b * 2) 20) i

theorem clientRestAux_always429_ra (transport : Nat → HttpResp) (js : Nat → ℚ)
    (ra : ℚ) (ht : ∀ i, transport i = ⟨429, some ra⟩) :
    ∀ rem a b, clientRestAux transport js a b rem =
      (List.replicate rem ra, rem, .exhausted) := by
  intro rem
  induction rem with
  | zero => intro a b; rfl
  | succ k ih =>
    intro a b
    simp only [clientRestAux, ht a, show ((429 : Nat) == 200) = false from rfl,
      show ((429 : Nat) == 201) = false from rfl,
      show ((429 : Nat) == 202) = false from rfl,
      show ((429 : Nat) == 204) = false from rfl,
      show ((429 : Nat) == 429) = true from rfl, Bool.false_or, Bool.true_or,
      if_true, if_false, Bool.false_eq_true]
    rw [ih (a + 1) b]
    simp [List.replicate_succ]

theorem clientRestAux_always429_backoff (transport : Nat → HttpResp)
    (js : Nat → ℚ) (ht : ∀ i, transport i = ⟨429, none⟩) :
    ∀ rem a b, clientRestAux transport js a b rem =
      ((List.range rem).map (fun i => backoffSeq b i * js (a + i)), rem,
        .exhausted) := by
  intro rem
  induction rem with
  | zero => intro a b; rfl
  | succ k ih =>
    intro a b
    simp only [clientRestAux, ht a, show ((429 : Nat) == 200) = false from rfl,
      show ((429 : Nat) == 201) = false from rfl,
      show ((429 : Nat) == 202) = false from rfl,
      show ((429 : Nat) == 204) = false from rfl,
      show ((429 : Nat) == 429) = true from rfl, Bool.false_or, Bool.true_or,
      if_true, if_false, Bool.false_eq_true]
    rw [ih (a + 1) (min (b * 2) 20)]
    refine Prod.ext ?_ rfl
    show b * js a :: _ = _
    rw [List.range_succ_eq_map, List.map_cons, List.map_map]
    congr 1
    apply List.map_congr_left
    intro i _
    show backoffSeq (min (b * 2) 20) i * js (a + 1 + i) =
      backoffSeq b (i + 1) * js (a + (i + 1))
    have hidx : a + 1 + i = a + (i + 1) := by omega
    rw [hidx]
    rfl

theorem backoffSeq_closed (i : ℕ) : ∀ b : ℚ, 1 ≤ b → b ≤ 20 →
    backoffSeq b i = min (b * 2 ^ i) 20 := by
  induction i with
  | zero =>
    intro b h1 h2
    simp only [backoffSeq, pow_zero, mul_one]
    exact (min_eq_left h2).symm
  | succ k ih =>
    intro b h1 h2
    show backoffSeq (min (b * 2) 20) k = _
    by_cases hb2 : b * 2 ≤ 20
    · rw [min_eq_left hb2, ih (b * 2) (by linarith) hb2]
      congr 1
      ring
    · push_neg at hb2
      rw [min_eq_right (le_of_lt hb2), ih 20 (by norm_num) (by norm_num)]
      have h2pow : (1 : ℚ) ≤ 2 ^ k := one_le_pow₀ (by norm_num)
      have hL : min ((20 : ℚ) * 2 ^ k) 20 = 20 :=
        min_eq_right (by nlinarith)
      have hR : min (b * 2 ^ (k + 1)) 20 = 20 := by
        apply min_eq_right
        have : b * 2 ^ (k + 1) = (b * 2) * 2 ^ k := by ring
        rw [this]
        nlinarith
      rw [hL, hR]

/-- Claim C3, amended: with a transport that answers every attempt with
a rate-limit signal, `Shopify._request` of `src/src/sync.py` performs
exactly `max_retries` attempts, sleeping the server-suggested delay
after each one, and then returns the last 429 response, which makes the
`_get`/`_post`/`_put`/`_delete` wrappers raise; `ShopifyClient._rest`
of `src/src/shopify_client.py` performs `max_retries + 1` attempts
before raising its retries-exhausted error, sleeping the
server-suggested delay when present and otherwise the jittered
exponential backoff `min(2^i, 20)` of attempt `i`.  The frozen claim
asserts exactly `n` attempts for every gateway. -/
theorem retry_budget_behaviour :
    (∀ (n : ℕ) (ra : ℚ) (transport : Nat → HttpResp), 0 < n →
      (∀ i, transport i = ⟨429, some ra⟩) →
      syncRequest n transport =
        (List.replicate n ra, n, some ⟨429, some ra⟩)) ∧
    (∀ (n : ℕ) (ra : ℚ) (transport : Nat → HttpResp), 0 < n →
      (∀ i, transport i = ⟨429, some ra⟩) →
      syncWrapperRaises n transport = true) ∧
    (∀ (n : ℕ) (ra : ℚ) (transport : Nat → HttpResp) (js : Nat → ℚ),
      (∀ i, transport i = ⟨429, some ra⟩) →
      clientRest n transport js =
        (List.replicate (n + 1) ra, n + 1, .exhausted)) ∧
    (∀ (n : ℕ) (transport : Nat → HttpResp) (js : Nat → ℚ),
      (∀ i, transport i = ⟨429, none⟩) →
      clientRest n transport js =
        ((List.range (n + 1)).map (fun i => min (2 ^ i) 20 * js i), n + 1,
          .exhausted)) := by
  refine ⟨?_, ?_, ?_, ?_⟩
  · intro n ra transport hn ht
    obtain ⟨m, rfl⟩ : ∃ m, n = m + 1 := ⟨n - 1, by omega⟩
    exact syncRequestAux_always429 transport ra ht m 1
  · intro n ra transport hn ht
    obtain ⟨m, rfl⟩ : ∃ m, n = m + 1 := ⟨n - 1, by omega⟩
    unfold syncWrapperRaises
    rw [show syncRequest (m + 1) transport =
      (List.replicate (m + 1) ra, m + 1, some ⟨429, some ra⟩) from
        syncRequestAux_always429 transport ra ht m 1]
    rfl
  · intro n ra transport js ht
    exact clientRestAux_always429_ra transport js ra ht (n + 1) 0 1
  · intro n transport js ht
    rw [show clientRest n transport js =
      ((List.range (n + 1)).map (fun i => backoffSeq 1 i * js (0 + i)), n + 1,
        .exhausted) from
      clientRestAux_always429_backoff transport js ht (n + 1) 0 1]
    refine Prod.ext ?_ rfl
    apply List.map_congr_left
    intro i _
    rw [backoffSeq_closed i 1 (by norm_num) (by norm_num), one_mul,
      Nat.zero_add]

/-- Claim C3, counterexample to the frozen wording: a client gateway
configured with one retry performs two attempts, not one, before
raising. -/
theorem client_rest_attempts_counterexample :
    (clientRest 1 (fun _ => ⟨429, some 2⟩) (fun _ => 1)).2.1 = 2 ∧
      ¬ (clientRest 1 (fun _ => ⟨429, some 2⟩) (fun _ => 1)).2.1 = 1 := by
  have h := retry_budget_behaviour.2.2.1 1 2 (fun _ => ⟨429, some 2⟩)
    (fun _ => 1) (fun i => rfl)
  rw [h]
  exact ⟨rfl, by decide⟩

/-- Claim C3, witness: the amended behaviour at `max_retries = 3` and a
server-suggested delay of two seconds. -/
theorem retry_budget_behaviour_witness :
    syncRequest 3 (fun _ => ⟨429, some 2⟩) =
      (List.replicate 3 2, 3, some ⟨429, some 2⟩) ∧
    syncWrapperRaises 3 (fun _ => ⟨429, some 2⟩) = true ∧
    clientRest 3 (fun _ => ⟨429, some 2⟩) (fun _ => 1) =
      (List.replicate 4 2, 4, .exhausted) := by
  refine ⟨?_, ?_, ?_⟩
  · exact retry_budget_behaviour.1 3 2 (fun _ => ⟨429, some 2⟩)
      (by norm_num) (fun i => rfl)
  · exact retry_budget_behaviour.2.1 3 2 (fun _ => ⟨429, some 2⟩)
      (by norm_num) (fun i => rfl)
  · exact retry_budget_behaviour.2.2.1 3 2 (fun _ => ⟨429, some 2⟩)
      (fun _ => 1) (fun i => rfl)

/-- Claim C8: the orchestrator of `main` gives every SKU-group of a run
an outcome, and a group whose processing raises is recorded as exactly
one additional error while the remaining groups are still processed,
against the store state the failed group left behind. -/
theorem orchestrator_group_isolation :
    (∀ cfg st groups, ((runGroups cfg st groups).2.1).length = groups.length) ∧
    (∀ cfg st sku rows rest e,
      (processSkuGroup cfg st sku rows).res = .error e →
      (runGroups cfg st ((sku, rows) :: rest)).2.1 =
        GOutcome.error ::
          (runGroups cfg (processSkuGroup cfg st sku rows).store rest).2.1 ∧
      (runGroups cfg st ((sku, rows) :: rest)).2.2.1.errors =
        (runGroups cfg (processSkuGroup cfg st sku rows).store rest).2.2.1.errors
          + 1 ∧
      (runGroups cfg st ((sku, rows) :: rest)).2.2.1.success =
        (runGroups cfg (processSkuGroup cfg st sku rows).store rest).2.2.1.success) := by
  constructor
  · intro cfg st groups
    induction groups generalizing st with
    | nil => rfl
    | cons g rest ih =>
      show ((runGroups cfg st (g :: rest)).2.1).length = rest.length + 1
      simp only [runGroups]
      rw [List.length_cons, ih]
  · intro cfg st sku rows rest e herr
    simp only [runGroups, herr, resOutcome, addStat]
    exact ⟨trivial, trivial, trivial⟩

/-- Claim C8, witness: a run over the groups A, B, C in which B raises
(an empty row list makes `rows[0]` raise) still produces three
outcomes, B contributing exactly one error and no success. -/
theorem orchestrator_group_isolation_witness :
    ((runGroups ⟨none, none, []⟩ ⟨[], [], [], [], 0⟩
        [("A", [⟨some "A", some "SI", none, none, none, some "1", 2⟩]),
          ("B", []),
          ("C", [⟨some "C", some "SI", none, none, none, some "1", 3⟩])]).2.1).length
        = 3 ∧
    (runGroups ⟨none, none, []⟩ ⟨[], [], [], [], 0⟩
        [("B", []),
          ("C", [⟨some "C", some "SI", none, none, none, some "1", 3⟩])]).2.1 =
      GOutcome.error ::
        (runGroups ⟨none, none, []⟩
          (processSkuGroup ⟨none, none, []⟩ ⟨[], [], [], [], 0⟩ "B" []).store
          [("C", [⟨some "C", some "SI", none, none, none, some "1", 3⟩])]).2.1 ∧
    (runGroups ⟨none, none, []⟩ ⟨[], [], [], [], 0⟩
        [("B", []),
          ("C", [⟨some "C", some "SI", none, none, none, some "1", 3⟩])]).2.2.1.errors =
      (runGroups ⟨none, none, []⟩
        (processSkuGroup ⟨none, none, []⟩ ⟨[], [], [], [], 0⟩ "B" []).store
        [("C", [⟨some "C", some "SI", none, none, none, some "1", 3⟩])]).2.2.1.errors
        + 1 := by
  refine ⟨orchestrator_group_isolation.1 _ _ _, ?_, ?_⟩
  · exact (orchestrator_group_isolation.2 ⟨none, none, []⟩ ⟨[], [], [], [], 0⟩
      "B" [] [("C", [⟨some "C", some "SI", none, none, none, some "1", 3⟩])]
      "IndexError" rfl).1
  · exact (orchestrator_group_isolation.2 ⟨none, none, []⟩ ⟨[], [], [], [], 0⟩
      "B" [] [("C", [⟨some "C", some "SI", none, none, none, some "1", 3⟩])]
      "IndexError" rfl).2.1


theorem getProduct_mapProduct (st : Store) (pid x : Nat) (f : SProduct → SProduct)
    (hf : ∀ p, (f p).pid = p.pid) :
    getProduct (mapProduct st pid f) x =
      (getProduct st x).map (fun p => if p.pid == pid then f p else p) := by
  show (st.products.map (fun p => if p.pid == pid then f p else p)).find?
      (fun p => p.pid == x) = _
  rw [List.find?_map]
  have heq : ((fun p : SProduct => p.pid == x) ∘
      (fun p => if p.pid == pid then f p else p)) = (fun p => p.pid == x) := by
    funext p
    simp only [Function.comp]
    split
    · rw [hf]
    · rfl
  rw [heq]
  rfl

theorem length_filter_map_true {α β : Type} (f : α → β) (p : β → Bool)
    (l : List α) (h : ∀ a, p (f a) = true) :
    ((l.map f).filter p).length = l.length := by
  induction l with
  | nil => rfl
  | cons a as ih => simp [List.filter_cons, h, ih]

theorem filter_map_false {α β : Type} (f : α → β) (p : β → Bool)
    (l : List α) (h : ∀ a, p (f a) = false) : (l.map f).filter p = [] := by
  induction l with
  | nil => rfl
  | cons a as ih => simp [List.filter_cons, h, ih]

theorem insertByPos_length (x : SImage) (l : List SImage) :
    (insertByPos x l).length = l.length + 1 := by
  induction l with
  | nil => rfl
  | cons y ys ih =>
    unfold insertByPos
    split
    · simp
    · simp [ih]

theorem sortByPos_length (l : List SImage) :
    (sortByPos l).length = l.length := by
  have haux : ∀ (xs : List SImage) (acc : List SImage),
      (xs.foldl (fun acc x => insertByPos x acc) acc).length =
        acc.length + xs.length := by
    intro xs
    induction xs with
    | nil => intro acc; simp
    | cons x xs ih =>
      intro acc
      show ((xs.foldl _ (insertByPos x acc)).length) = _
      rw [ih (insertByPos x acc), insertByPos_length]
      simp only [List.length_cons]
      omega
  show (l.foldl (fun acc x => insertByPos x acc) []).length = l.length
  rw [haux l []]
  simp

/-- Claim C5, counterexample to the frozen wording: on a pair whose
ordered URL sequences already coincide and whose derived image carries
no alt text, `copy_images` still issues one delete and one create call
instead of being a no-op. -/
theorem copy_images_counterexample :
    ((copyImages
        ⟨[⟨1, "T", "h", .active, "", [], [⟨11, "u", 1, ""⟩], []⟩,
          ⟨2, "T2", "h2", .active, "", [], [⟨21, "u", 1, ""⟩], []⟩],
          [], [], [], 100⟩ 1 2).2.filter Call.isMutating).length = 2 ∧
      ¬ ((copyImages
        ⟨[⟨1, "T", "h", .active, "", [], [⟨11, "u", 1, ""⟩], []⟩,
          ⟨2, "T2", "h2", .active, "", [], [⟨21, "u", 1, ""⟩], []⟩],
          [], [], [], 100⟩ 1 2).2.filter Call.isMutating).length = 0 := by
  constructor
  · decide
  · decide

/-- Claim C5, amended: `copy_images` never short-circuits — it always
deletes every existing image of the derived product and re-creates the
source images, issuing one delete per existing derived image and one
create per source image; the rebuild does leave the derived product
with exactly the source's position-ordered URL sequence and empty alt
text, so the operation is idempotent in its effect on the remote state
although it is never a no-op in its calls. -/
theorem copy_images_rebuild (st : Store) (srcPid destPid : Nat)
    (srcP destP : SProduct)
    (hsrc : getProduct st srcPid = some srcP)
    (hdest : getProduct st destPid = some destP) :
    (((copyImages st srcPid destPid).2.filter
        (fun c => match c with
          | Call.restDeleteImage _ _ => true
          | _ => false)).length = destP.images.length) ∧
    (((copyImages st srcPid destPid).2.filter
        (fun c => match c with
          | Call.restCreateImage _ _ _ _ => true
          | _ => false)).length = srcP.images.length) ∧
    ((getProduct (copyImages st srcPid destPid).1 destPid).map
        (fun p => p.images.map (fun im => (im.src, im.alt)))) =
      some ((sortByPos srcP.images).map (fun im => (im.src, ""))) := by
  have hdpid : (destP.pid == destPid) = true := by
    have h := hdest
    unfold getProduct at h
    have h2 := List.find?_some h
    exact h2
  have hcalls : (copyImages st srcPid destPid).2 =
      [Call.restGetImages srcPid, Call.restGetImages destPid] ++
        destP.images.map (fun im => Call.restDeleteImage destPid im.iid) ++
        (sortByPos srcP.images).enum.map
          (fun iim => Call.restCreateImage destPid iim.2.src (iim.1 + 1) "") := by
    simp only [copyImages, hsrc, hdest, Option.map_some', Option.getD_some]
  refine ⟨?_, ?_, ?_⟩
  · rw [hcalls, List.filter_append, List.filter_append]
    rw [show List.filter (fun c => match c with
        | Call.restDeleteImage _ _ => true
        | _ => false) [Call.restGetImages srcPid, Call.restGetImages destPid] = []
      from rfl]
    have h2 : ((sortByPos srcP.images).enum.map
        (fun iim => Call.restCreateImage destPid iim.2.src (iim.1 + 1) "")).filter
          (fun c => match c with
            | Call.restDeleteImage _ _ => true
            | _ => false) = [] := filter_map_false _ _ _ (fun a => rfl)
    rw [h2, List.nil_append, List.append_nil]
    rw [length_filter_map_true _ _ _ (fun a => rfl)]
  · rw [hcalls, List.filter_append, List.filter_append]
    rw [show List.filter (fun c => match c with
        | Call.restCreateImage _ _ _ _ => true
        | _ => false) [Call.restGetImages srcPid, Call.restGetImages destPid] = []
      from rfl]
    have h2 : (destP.images.map
        (fun im => Call.restDeleteImage destPid im.iid)).filter
          (fun c => match c with
            | Call.restCreateImage _ _ _ _ => true
            | _ => false) = [] := filter_map_false _ _ _ (fun a => rfl)
    rw [h2, List.nil_append, List.nil_append]
    rw [length_filter_map_true _ _ _ (fun a => rfl)]
    rw [List.enum_length, sortByPos_length]
  · have hgp : getProduct (copyImages st srcPid destPid).1 destPid =
        getProduct (mapProduct st destPid
          (fun p => { p with images := (sortByPos srcP.images).enum.map (fun iim => SImage.mk (st.nextId + iim.1) iim.2.src (iim.1 + 1) "") })) destPid := by
      unfold getProduct
      have hst : (copyImages st srcPid destPid).1.products =
          (mapProduct st destPid
            (fun p => { p with images := (sortByPos srcP.images).enum.map (fun iim => SImage.mk (st.nextId + iim.1) iim.2.src (iim.1 + 1) "") })).products := by
        simp only [copyImages, hsrc, hdest, Option.map_some', Option.getD_some]
      rw [hst]
    have hmap := getProduct_mapProduct st destPid destPid
      (fun p => { p with images := (sortByPos srcP.images).enum.map (fun iim => SImage.mk (st.nextId + iim.1) iim.2.src (iim.1 + 1) "") })
      (fun p => rfl)
    rw [hgp, hmap, hdest]
    simp only [Option.map_some', hdpid, if_true]
    congr 1
    rw [List.map_map]
    have hcmp : ((fun im : SImage => (im.src, im.alt)) ∘
        (fun iim : Nat × SImage => SImage.mk (st.nextId + iim.1) iim.2.src (iim.1 + 1) "")) =
        ((fun im : SImage => (im.src, "")) ∘ Prod.snd) := by
      funext iim
      rfl
    rw [hcmp, ← List.map_map, List.enum_map_snd]

/-- Claim C5, witness: the rebuild applied to a store whose two
products already share the single image URL. -/
theorem copy_images_rebuild_witness :
    (((copyImages
        ⟨[⟨1, "T", "h", .active, "", [], [⟨11, "u", 1, ""⟩], []⟩,
          ⟨2, "T2", "h2", .active, "", [], [⟨21, "u", 1, ""⟩], []⟩],
          [], [], [], 100⟩ 1 2).2.filter
        (fun c => match c with
          | Call.restDeleteImage _ _ => true
          | _ => false)).length =
      (SProduct.mk 2 "T2" "h2" .active "" [] [⟨21, "u", 1, ""⟩] []).images.length) ∧
    (((copyImages
        ⟨[⟨1, "T", "h", .active, "", [], [⟨11, "u", 1, ""⟩], []⟩,
          ⟨2, "T2", "h2", .active, "", [], [⟨21, "u", 1, ""⟩], []⟩],
          [], [], [], 100⟩ 1 2).2.filter
        (fun c => match c with
          | Call.restCreateImage _ _ _ _ => true
          | _ => false)).length =
      (SProduct.mk 1 "T" "h" .active "" [] [⟨11, "u", 1, ""⟩] []).images.length) ∧
    ((getProduct (copyImages
        ⟨[⟨1, "T", "h", .active, "", [], [⟨11, "u", 1, ""⟩], []⟩,
          ⟨2, "T2", "h2", .active, "", [], [⟨21, "u", 1, ""⟩], []⟩],
          [], [], [], 100⟩ 1 2).1 2).map
        (fun p => p.images.map (fun im => (im.src, im.alt)))) =
      some ((sortByPos (SProduct.mk 1 "T" "h" .active "" []
        [⟨11, "u", 1, ""⟩] []).images).map (fun im => (im.src, ""))) :=
  copy_images_rebuild
    ⟨[⟨1, "T", "h", .active, "", [], [⟨11, "u", 1, ""⟩], []⟩,
      ⟨2, "T2", "h2", .active, "", [], [⟨21, "u", 1, ""⟩], []⟩],
      [], [], [], 100⟩ 1 2
    (SProduct.mk 1 "T" "h" .active "" [] [⟨11, "u", 1, ""⟩] [])
    (SProduct.mk 2 "T2" "h2" .active "" [] [⟨21, "u", 1, ""⟩] [])
    (by decide) (by decide)

/-- Claim C7, counterexample to the frozen wording: when the bulk
update of one variant reports one per-item error, the code issues
exactly one price-update call — there is no per-variant fallback call
for the failed item. -/
theorem bulk_price_fallback_counterexample :
    ((variantsBulkUpdatePrices [⟨101, "S", [], 201⟩] 1 "9.99" none ["err"]).1.filter
        (fun c => match c with
          | Call.gqlBulkPriceUpdate _ _ _ => true
          | _ => false)).length = 1 ∧
      ¬ ((variantsBulkUpdatePrices [⟨101, "S", [], 201⟩] 1 "9.99" none
          ["err"]).1.filter
        (fun c => match c with
          | Call.gqlBulkPriceUpdate _ _ _ => true
          | _ => false)).length = 2 := by
  constructor
  · decide
  · decide

/-- Claim C7, amended: `variants_bulk_update_prices` never raises
whatever the per-item error report says; it issues one variant fetch
and at most one bulk mutation and no per-variant fallback calls, the
error report is only logged, and the outcome, store and call trace of
`process_sku_group` are entirely independent of the report — so price
failures cannot change a group's outcome from success. -/
theorem bulk_price_update_non_fatal :
    (∀ vars pid price cmp errs,
      (variantsBulkUpdatePrices vars pid price cmp errs).2.2 = .ok ()) ∧
    (∀ vars pid price cmp errs,
      (variantsBulkUpdatePrices vars pid price cmp errs).1 =
        Call.gqlGetVariants pid ::
          (if vars.isEmpty then [] else [Call.gqlBulkPriceUpdate pid price cmp])) ∧
    (∀ vars pid price cmp errs,
      (variantsBulkUpdatePrices vars pid price cmp errs).2.1 = !errs.isEmpty) ∧
    (∀ cfg st sku rows errs,
      processSkuGroup { cfg with bulkErrs := errs } st sku rows =
        processSkuGroup cfg st sku rows) := by
  refine ⟨fun _ _ _ _ _ => rfl, fun _ _ _ _ _ => rfl, fun _ _ _ _ _ => rfl,
    fun cfg st sku rows errs => rfl⟩

/-- Claim C9, counterexample to the frozen wording: invoked without the
apply flag, `main` of `src/src/sync.py` returns immediately — it issues
none of the read calls that the applied run performs, so a dry run does
not carry out the read operations and resolution logic of the claim. -/
theorem dry_run_counterexample :
    (syncMain false ⟨none, none, []⟩
      ⟨[⟨1, "Ajax Sneaker", "ajax-sneaker", .active, "",
        [⟨101, "SKU1", [("Size", "42")], 201⟩], [], []⟩], [], [], [], 1000⟩
      [⟨some "SKU1", some "SI", some "129", some "99", some "42", some "5", 2⟩]).2.2.2
      = [] ∧
    ¬ ((syncMain true ⟨none, none, []⟩
      ⟨[⟨1, "Ajax Sneaker", "ajax-sneaker", .active, "",
        [⟨101, "SKU1", [("Size", "42")], 201⟩], [], []⟩], [], [], [], 1000⟩
      [⟨some "SKU1", some "SI", some "129", some "99", some "42", some "5", 2⟩]).2.2.2.filter
        (fun c => !c.isMutating) = []) := by
  constructor
  · rfl
  · decide

/-- Claim C9, amended: without the apply flag `main` issues zero remote
calls of any kind, mutating or read, leaving the store untouched — it
does not perform the read and resolution work the claim describes —
while `fix_prices_for_sku` in dry-run mode issues exactly the read
calls of the applied run up to the final update (its trace is a prefix
of the applied trace, free of mutating calls) and reports the update it
would have performed exactly when the applied run would update. -/
theorem dry_run_no_mutation :
    (∀ cfg st rows, syncMain false cfg st rows = (st, [], ⟨0, 0, 0, 0, 0⟩, [])) ∧
    (∀ st first, (fixPricesForSku st first true).2.filter Call.isMutating = []) ∧
    (∀ st first, ∃ extra,
      (fixPricesForSku st first false).2 = (fixPricesForSku st first true).2 ++ extra) ∧
    (∀ st first, ((fixPricesForSku st first true).1 = FixOutcome.successDry ↔
      (fixPricesForSku st first false).1 = FixOutcome.success)) := by
  have hcase : ∀ (st : Store) (first : FixRow) (motive : (FixOutcome × List Call) → (FixOutcome × List Call) → Prop),
      (motive (FixOutcome.skipNoProductId, []) (FixOutcome.skipNoProductId, [])) →
      (∀ pid, motive (FixOutcome.skipNotFound, [Call.gqlGetVariants pid])
        (FixOutcome.skipNotFound, [Call.gqlGetVariants pid])) →
      (∀ (pid : Nat) (pr : String × String), motive
        (FixOutcome.successDry, [Call.gqlGetVariants pid, Call.gqlGetVariants pid])
        (FixOutcome.success, [Call.gqlGetVariants pid, Call.gqlGetVariants pid] ++
          [Call.gqlGetVariants pid, Call.gqlBulkPriceUpdate pid pr.1 (some pr.2)])) →
      (∀ h, motive (FixOutcome.skipNotFound, [Call.gqlProductsByHandle h])
        (FixOutcome.skipNotFound, [Call.gqlProductsByHandle h])) →
      (∀ h, motive (FixOutcome.skipDraft, [Call.gqlProductsByHandle h])
        (FixOutcome.skipDraft, [Call.gqlProductsByHandle h])) →
      (∀ h pid, motive (FixOutcome.skipNotFound,
          [Call.gqlProductsByHandle h, Call.gqlGetVariants pid])
        (FixOutcome.skipNotFound,
          [Call.gqlProductsByHandle h, Call.gqlGetVariants pid])) →
      (∀ (h : String) (pid : Nat) (pr : String × String), motive
        (FixOutcome.successDry, [Call.gqlProductsByHandle h, Call.gqlGetVariants pid])
        (FixOutcome.success,
          [Call.gqlProductsByHandle h, Call.gqlGetVariants pid] ++
            [Call.gqlGetVariants pid, Call.gqlBulkPriceUpdate pid pr.1 (some pr.2)])) →
      motive (fixPricesForSku st first true) (fixPricesForSku st first false) := by
    intro st first motive h0 h1 h2 h3 h4 h5 h6
    obtain ⟨ph, po, pidref⟩ := first
    cases pidref with
    | none => exact h0
    | some ref =>
      cases ref with
      | gid pid =>
        simp only [fixPricesForSku]
        split
        · exact h1 pid
        · exact h2 pid _
      | handle h =>
        simp only [fixPricesForSku]
        split
        · exact h3 h
        · split
          · exact h4 h
          · split
            · exact h5 h _
            · exact h6 h _ (fixPricePair ph po)
  refine ⟨fun _ _ _ => rfl, ?_, ?_, ?_⟩
  · intro st first
    refine hcase st first (fun dry app => dry.2.filter Call.isMutating = [])
      rfl (fun _ => rfl) (fun _ _ => rfl) (fun _ => rfl) (fun _ => rfl)
      (fun _ _ => rfl) (fun _ _ _ => rfl)
  · intro st first
    refine hcase st first (fun dry app => ∃ extra, app.2 = dry.2 ++ extra)
      ⟨[], rfl⟩ (fun _ => ⟨[], rfl⟩) (fun _ _ => ⟨_, rfl⟩) (fun _ => ⟨[], rfl⟩)
      (fun _ => ⟨[], rfl⟩) (fun _ _ => ⟨[], rfl⟩) (fun _ _ _ => ⟨_, rfl⟩)
  · intro st first
    refine hcase st first
      (fun dry app => dry.1 = FixOutcome.successDry ↔ app.1 = FixOutcome.success)
      (by simp) (fun _ => by simp) (fun _ _ => by simp) (fun _ => by simp)
      (fun _ => by simp) (fun _ _ => by simp) (fun _ _ _ => by simp)

theorem find_setLevel (ls : List (Nat × Nat × ℤ)) (i l : Nat) (q : ℤ) (j m : Nat) :
    ((setLevelList ls i l q).find? (fun e => e.1 == j && e.2.1 == m)).map (·.2.2) =
      if j = i ∧ m = l then some q
      else ((ls.find? (fun e => e.1 == j && e.2.1 == m)).map (·.2.2)) := by
  by_cases hjm : j = i ∧ m = l
  · obtain ⟨rfl, rfl⟩ := hjm
    rw [if_pos ⟨rfl, rfl⟩]
    unfold setLevelList
    split
    · rename_i hany
      induction ls with
      | nil => simp at hany
      | cons e es ih =>
        rw [List.any_cons] at hany
        by_cases hk : (e.1 == j && e.2.1 == m) = true
        · simp only [List.map_cons, hk, if_true, List.find?_cons]
          rw [show ((j, m, q).1 == j && (j, m, q).2.1 == m) = true by simp]
          rfl
        · simp only [List.map_cons, hk, if_false, Bool.false_eq_true, List.find?_cons, hk]
          rw [Bool.or_eq_true] at hany
          rcases hany with h | h
          · exact absurd h hk
          · exact ih h
    · rename_i hany
      have hfn : ls.find? (fun e => e.1 == j && e.2.1 == m) = none := by
        rw [List.find?_eq_none]
        intro x hx
        intro hpx
        rw [Bool.not_eq_true] at hany
        have hx2 : (ls.any fun e => e.1 == j && e.2.1 == m) = true :=
          List.any_eq_true.mpr ⟨x, hx, hpx⟩
        rw [hx2] at hany
        cases hany
      rw [List.find?_append, hfn]
      simp
  · rw [if_neg hjm]
    have hkey : ((j, m) : Nat × Nat) ≠ (i, l) := by
      intro hc
      apply hjm
      exact ⟨congrArg Prod.fst hc, congrArg Prod.snd hc⟩
    have hfalse : (((i, l, q) : Nat × Nat × ℤ).1 == j &&
        ((i, l, q) : Nat × Nat × ℤ).2.1 == m) = false := by
      by_contra hcon
      rw [Bool.not_eq_false, Bool.and_eq_true, beq_iff_eq, beq_iff_eq] at hcon
      exact hjm ⟨hcon.1.symm, hcon.2.symm⟩
    unfold setLevelList
    split
    · rename_i hany
      clear hany
      induction ls with
      | nil => rfl
      | cons e es ih =>
        by_cases hk : (e.1 == i && e.2.1 == l) = true
        · have hkjm : (e.1 == j && e.2.1 == m) = false := by
            rw [Bool.and_eq_true, beq_iff_eq, beq_iff_eq] at hk
            by_contra hcon
            rw [Bool.not_eq_false, Bool.and_eq_true, beq_iff_eq, beq_iff_eq] at hcon
            exact hjm ⟨hcon.1.symm.trans hk.1, hcon.2.symm.trans hk.2⟩
          simp only [List.map_cons, hk, if_true, List.find?_cons, hfalse, hkjm]
          exact ih
        · simp only [List.map_cons, hk, if_false, Bool.false_eq_true,
            List.find?_cons]
          by_cases hkjm : (e.1 == j && e.2.1 == m) = true
          · simp [hkjm]
          · simp only [Bool.not_eq_true] at hkjm
            simp only [hkjm]
            exact ih
    · rw [List.find?_append]
      rw [show List.find? (fun e => e.1 == j && e.2.1 == m) [(i, l, q)] = none by
        rw [List.find?_cons, hfalse]; rfl]
      cases ls.find? (fun e => e.1 == j && e.2.1 == m) <;> rfl

theorem find_delLevel (ls : List (Nat × Nat × ℤ)) (i l : Nat) (j m : Nat) :
    ((delLevelList ls i l).find? (fun e => e.1 == j && e.2.1 == m)).map (·.2.2) =
      if j = i ∧ m = l then none
      else ((ls.find? (fun e => e.1 == j && e.2.1 == m)).map (·.2.2)) := by
  unfold delLevelList
  by_cases hjm : j = i ∧ m = l
  · obtain ⟨rfl, rfl⟩ := hjm
    rw [if_pos ⟨rfl, rfl⟩]
    have : (ls.filter (fun e => !(e.1 == j && e.2.1 == m))).find?
        (fun e => e.1 == j && e.2.1 == m) = none := by
      rw [List.find?_eq_none]
      intro x hx
      have := List.of_mem_filter hx
      intro hpx
      rw [hpx] at this
      cases this
    rw [this]
    rfl
  · rw [if_neg hjm]
    induction ls with
    | nil => rfl
    | cons e es ih =>
      rw [List.filter_cons]
      by_cases hk : (e.1 == i && e.2.1 == l) = true
      · have hkjm : (e.1 == j && e.2.1 == m) = false := by
          rw [Bool.and_eq_true, beq_iff_eq, beq_iff_eq] at hk
          by_contra hcon
          rw [Bool.not_eq_false, Bool.and_eq_true, beq_iff_eq, beq_iff_eq] at hcon
          exact hjm ⟨hcon.1.symm.trans hk.1, hcon.2.symm.trans hk.2⟩
        simp only [hk, Bool.not_true, if_false, Bool.false_eq_true, List.find?_cons, hkjm]
        exact ih
      · rw [Bool.not_eq_true] at hk
        simp only [hk, Bool.not_false, if_true, List.find?_cons]
        by_cases hkjm : (e.1 == j && e.2.1 == m) = true
        · simp [hkjm]
        · rw [Bool.not_eq_true] at hkjm
          simp only [hkjm]
          exact ih

theorem getLevel_inventorySet (st : Store) (a loc : Nat) (q : ℤ) (j m : Nat) :
    getLevel (inventorySet st a loc q).1 j m =
      if j = a ∧ m = loc then some q else getLevel st j m := by
  unfold inventorySet getLevel
  split
  · exact find_setLevel st.levels a loc q j m
  · exact find_setLevel st.levels a loc q j m

theorem getLevel_inventoryConnect (st : Store) (a loc : Nat) (j m : Nat) :
    getLevel (inventoryConnect st a loc).1 j m =
      if j = a ∧ m = loc then some ((getLevel st a loc).getD 0)
      else getLevel st j m := by
  unfold inventoryConnect
  split
  · rename_i hany
    by_cases hjm : j = a ∧ m = loc
    · obtain ⟨rfl, rfl⟩ := hjm
      rw [if_pos ⟨rfl, rfl⟩]
      obtain ⟨x, hx, hpx⟩ := List.any_eq_true.mp hany
      unfold getLevel
      have hsome : (st.levels.find? (fun e => e.1 == j && e.2.1 == m)).isSome = true := by
        rw [List.find?_isSome]
        exact ⟨x, hx, hpx⟩
      obtain ⟨y, hy⟩ := Option.isSome_iff_exists.mp hsome
      rw [hy]
      rfl
    · rw [if_neg hjm]
  · rename_i hany
    by_cases hjm : j = a ∧ m = loc
    · obtain ⟨rfl, rfl⟩ := hjm
      rw [if_pos ⟨rfl, rfl⟩]
      have hf : st.levels.find? (fun e => e.1 == j && e.2.1 == m) = none := by
        rw [List.find?_eq_none]
        intro x hx hpx
        rw [Bool.not_eq_true] at hany
        have hx2 : (st.levels.any fun e => e.1 == j && e.2.1 == m) = true :=
          List.any_eq_true.mpr ⟨x, hx, hpx⟩
        rw [hx2] at hany
        cases hany
      show getLevel ({ st with levels := setLevelList st.levels j m 0 } : Store) j m = _
      unfold getLevel
      rw [show ({ st with levels := setLevelList st.levels j m 0 } : Store).levels =
        setLevelList st.levels j m 0 from rfl]
      rw [find_setLevel st.levels j m 0 j m, if_pos ⟨rfl, rfl⟩]
      simp [hf]
    · rw [if_neg hjm]
      show getLevel ({ st with levels := setLevelList st.levels a loc 0 } : Store) j m = _
      unfold getLevel
      rw [show ({ st with levels := setLevelList st.levels a loc 0 } : Store).levels =
        setLevelList st.levels a loc 0 from rfl]
      rw [find_setLevel st.levels a loc 0 j m, if_neg hjm]

theorem getLevel_inventoryDeleteLevel (st : Store) (a loc : Nat) (j m : Nat) :
    getLevel (inventoryDeleteLevel st a loc).1 j m =
      if j = a ∧ m = loc then none else getLevel st j m := by
  unfold inventoryDeleteLevel getLevel
  exact find_delLevel st.levels a loc j m

theorem foldSteps_acc {α : Type} (f : Store → α → Store × List Call) (xs : List α) :
    ∀ (st : Store) (c : List Call),
      xs.foldl (fun acc x => ((f acc.1 x).1, acc.2 ++ (f acc.1 x).2)) (st, c) =
        ((foldSteps f st xs).1, c ++ (foldSteps f st xs).2) := by
  induction xs with
  | nil => intro st c; simp [foldSteps]
  | cons x xs ih =>
    intro st c
    show xs.foldl _ ((f st x).1, c ++ (f st x).2) = _
    rw [ih (f st x).1 (c ++ (f st x).2)]
    have hx : foldSteps f st (x :: xs) =
        ((foldSteps f (f st x).1 xs).1, (f st x).2 ++ (foldSteps f (f st x).1 xs).2) := by
      unfold foldSteps
      show xs.foldl _ ((f st x).1, [] ++ (f st x).2) = _
      rw [ih (f st x).1 ([] ++ (f st x).2)]
      rw [List.nil_append]
      rfl
    rw [hx]
    try rfl
    simp [List.append_assoc]

theorem foldSteps_cons {α : Type} (f : Store → α → Store × List Call) (x : α)
    (xs : List α) (st : Store) :
    foldSteps f st (x :: xs) =
      ((foldSteps f (f st x).1 xs).1,
        (f st x).2 ++ (foldSteps f (f st x).1 xs).2) := by
  unfold foldSteps
  show xs.foldl _ ((f st x).1, [] ++ (f st x).2) = _
  rw [foldSteps_acc f xs (f st x).1 ([] ++ (f st x).2)]
  rw [List.nil_append]
  rfl

theorem zeroFold_level (loc : Nat) (vars : List SVariant) :
    ∀ (st : Store) (j m : Nat),
      getLevel (foldSteps (fun s v => inventorySet s v.invItem loc 0) st vars).1 j m =
        if (∃ v ∈ vars, v.invItem = j) ∧ m = loc then some 0
        else getLevel st j m := by
  induction vars with
  | nil =>
    intro st j m
    rw [if_neg (by simp)]
    rfl
  | cons v vs ih =>
    intro st j m
    rw [foldSteps_cons]
    rw [ih _ j m, getLevel_inventorySet]
    by_cases h1 : (∃ w ∈ vs, w.invItem = j) ∧ m = loc
    · rw [if_pos h1, if_pos ⟨⟨h1.1.choose, List.mem_cons_of_mem v h1.1.choose_spec.1,
        h1.1.choose_spec.2⟩, h1.2⟩]
    · rw [if_neg h1]
      by_cases h2 : j = v.invItem ∧ m = loc
      · rw [if_pos h2, if_pos ⟨⟨v, List.mem_cons_self v vs, h2.1.symm⟩, h2.2⟩]
      · rw [if_neg h2]
        rw [if_neg ?hneg]
        case hneg =>
          intro hc
          obtain ⟨⟨w, hw, hwi⟩, hm⟩ := hc
          rcases List.mem_cons.mp hw with rfl | hw2
          · exact h2 ⟨hwi.symm, hm⟩
          · exact h1 ⟨⟨w, hw2, hwi⟩, hm⟩

theorem magFold_level (loc : Nat) (vars : List SVariant) :
    ∀ (st : Store) (j m : Nat),
      getLevel (foldSteps (fun s v =>
          let z := inventorySet s v.invItem loc 0
          let d := inventoryDeleteLevel z.1 v.invItem loc
          (d.1, z.2 ++ d.2)) st vars).1 j m =
        if (∃ v ∈ vars, v.invItem = j) ∧ m = loc then none
        else getLevel st j m := by
  induction vars with
  | nil =>
    intro st j m
    rw [if_neg (by simp)]
    rfl
  | cons v vs ih =>
    intro st j m
    rw [foldSteps_cons]
    rw [ih _ j m]
    show _ = _
    by_cases h1 : (∃ w ∈ vs, w.invItem = j) ∧ m = loc
    · rw [if_pos h1, if_pos ⟨⟨h1.1.choose, List.mem_cons_of_mem v h1.1.choose_spec.1,
        h1.1.choose_spec.2⟩, h1.2⟩]
    · rw [if_neg h1]
      rw [getLevel_inventoryDeleteLevel, getLevel_inventorySet]
      by_cases h2 : j = v.invItem ∧ m = loc
      · rw [if_pos h2, if_pos ⟨⟨v, List.mem_cons_self v vs, h2.1.symm⟩, h2.2⟩]
      · rw [if_neg h2, if_neg h2]
        rw [if_neg ?hneg2]
        case hneg2 =>
          intro hc
          obtain ⟨⟨w, hw, hwi⟩, hm⟩ := hc
          rcases List.mem_cons.mp hw with rfl | hw2
          · exact h2 ⟨hwi.symm, hm⟩
          · exact h1 ⟨⟨w, hw2, hwi⟩, hm⟩

theorem inventorySet_products (st : Store) (a l : Nat) (q : ℤ) :
    (inventorySet st a l q).1.products = st.products := by
  unfold inventorySet; split <;> rfl

theorem inventorySet_locations (st : Store) (a l : Nat) (q : ℤ) :
    (inventorySet st a l q).1.locations = st.locations := by
  unfold inventorySet; split <;> rfl

theorem inventoryConnect_products (st : Store) (a l : Nat) :
    (inventoryConnect st a l).1.products = st.products := by
  unfold inventoryConnect; split <;> rfl

theorem inventoryConnect_locations (st : Store) (a l : Nat) :
    (inventoryConnect st a l).1.locations = st.locations := by
  unfold inventoryConnect; split <;> rfl

theorem inventoryDeleteLevel_locations (st : Store) (a l : Nat) :
    (inventoryDeleteLevel st a l).1.locations = st.locations := rfl

theorem foldSteps_products {α : Type} (f : Store → α → Store × List Call)
    (hf : ∀ s x, (f s x).1.products = s.products) (xs : List α) :
    ∀ st : Store, (foldSteps f st xs).1.products = st.products := by
  induction xs with
  | nil => intro st; rfl
  | cons x xs ih =>
    intro st
    rw [foldSteps_cons]
    show (foldSteps f (f st x).1 xs).1.products = st.products
    rw [ih (f st x).1, hf st x]

theorem foldSteps_locations {α : Type} (f : Store → α → Store × List Call)
    (hf : ∀ s x, (f s x).1.locations = s.locations) (xs : List α) :
    ∀ st : Store, (foldSteps f st xs).1.locations = st.locations := by
  induction xs with
  | nil => intro st; rfl
  | cons x xs ih =>
    intro st
    rw [foldSteps_cons]
    show (foldSteps f (f st x).1 xs).1.locations = st.locations
    rw [ih (f st x).1, hf st x]

theorem inventoryPromoPhase_products (sku : String) (loc : Nat) (vars : List SVariant)
    (rows : List SheetRow) (st : Store) :
    (inventoryPromoPhase sku loc vars rows st).1.products = st.products := by
  have h1 : ∀ (s : Store) (v : SVariant),
      ((fun (s : Store) (v : SVariant) => inventoryConnect s v.invItem loc) s v).1.products
        = s.products := fun s v => inventoryConnect_products s v.invItem loc
  have h2 : ∀ (s : Store) (v : SVariant),
      ((fun (s : Store) (v : SVariant) => inventorySet s v.invItem loc 0) s v).1.products
        = s.products := fun s v => inventorySet_products s v.invItem loc 0
  have h3 : ∀ (s : Store) (row : SheetRow),
      ((fun (s : Store) (row : SheetRow) =>
        match findTargetVariant vars sku (pyStrip (row.taglia.getD "")) with
        | some tv => inventorySet s tv.invItem loc (parseQta (qtaCell row))
        | none => (s, ([] : List Call))) s row).1.products = s.products := by
    intro s row
    show ((match findTargetVariant vars sku (pyStrip (row.taglia.getD "")) with
        | some tv => inventorySet s tv.invItem loc (parseQta (qtaCell row))
        | none => (s, ([] : List Call))).1).products = s.products
    cases findTargetVariant vars sku (pyStrip (row.taglia.getD "")) with
    | some tv => exact inventorySet_products s tv.invItem loc (parseQta (qtaCell row))
    | none => rfl
  exact (foldSteps_products _ h3 rows _).trans
    ((foldSteps_products _ h2 vars _).trans (foldSteps_products _ h1 vars _))

theorem inventoryPromoPhase_locations (sku : String) (loc : Nat) (vars : List SVariant)
    (rows : List SheetRow) (st : Store) :
    (inventoryPromoPhase sku loc vars rows st).1.locations = st.locations := by
  have h1 : ∀ (s : Store) (v : SVariant),
      ((fun (s : Store) (v : SVariant) => inventoryConnect s v.invItem loc) s v).1.locations
        = s.locations := fun s v => inventoryConnect_locations s v.invItem loc
  have h2 : ∀ (s : Store) (v : SVariant),
      ((fun (s : Store) (v : SVariant) => inventorySet s v.invItem loc 0) s v).1.locations
        = s.locations := fun s v => inventorySet_locations s v.invItem loc 0
  have h3 : ∀ (s : Store) (row : SheetRow),
      ((fun (s : Store) (row : SheetRow) =>
        match findTargetVariant vars sku (pyStrip (row.taglia.getD "")) with
        | some tv => inventorySet s tv.invItem loc (parseQta (qtaCell row))
        | none => (s, ([] : List Call))) s row).1.locations = s.locations := by
    intro s row
    show ((match findTargetVariant vars sku (pyStrip (row.taglia.getD "")) with
        | some tv => inventorySet s tv.invItem loc (parseQta (qtaCell row))
        | none => (s, ([] : List Call))).1).locations = s.locations
    cases findTargetVariant vars sku (pyStrip (row.taglia.getD "")) with
    | some tv => exact inventorySet_locations s tv.invItem loc (parseQta (qtaCell row))
    | none => rfl
  exact (foldSteps_locations _ h3 rows _).trans
    ((foldSteps_locations _ h2 vars _).trans (foldSteps_locations _ h1 vars _))

theorem getLocationByName_congr (st st' : Store) (nm : String)
    (h : st.locations = st'.locations) :
    getLocationByName st nm = getLocationByName st' nm := by
  unfold getLocationByName; rw [h]

theorem getProduct_congr (st st' : Store) (pid : Nat)
    (h : st.products = st'.products) :
    getProduct st pid = getProduct st' pid := by
  unfold getProduct; rw [h]

theorem inventorySet_calls_head (st : Store) (a l : Nat) (q : ℤ) :
    ∃ t, (inventorySet st a l q).2 = Call.restInvSet a l q :: t := by
  unfold inventorySet; split
  · exact ⟨[], rfl⟩
  · exact ⟨[Call.restInvConnect a l, Call.restInvSet a l q], rfl⟩

theorem magPhase_order (loc : Nat) (vars : List SVariant) :
    ∀ st : Store, ∀ v ∈ vars, ∃ l1 l2 l3,
      (inventoryMagPhase loc vars st).2 =
        l1 ++ Call.restInvSet v.invItem loc 0 ::
          (l2 ++ Call.restInvDelete v.invItem loc :: l3) := by
  induction vars with
  | nil => intro st v hv; cases hv
  | cons w ws ih =>
    intro st v hv
    have hstep : inventoryMagPhase loc (w :: ws) st =
        ((inventoryMagPhase loc ws
            ((inventoryDeleteLevel (inventorySet st w.invItem loc 0).1 w.invItem loc).1)).1,
          ((inventorySet st w.invItem loc 0).2 ++
            (inventoryDeleteLevel (inventorySet st w.invItem loc 0).1 w.invItem loc).2) ++
          (inventoryMagPhase loc ws
            ((inventoryDeleteLevel (inventorySet st w.invItem loc 0).1 w.invItem loc).1)).2) := by
      show foldSteps _ st (w :: ws) = _
      rw [foldSteps_cons]
      rfl
    rcases List.mem_cons.mp hv with rfl | hv2
    · obtain ⟨t, ht⟩ := inventorySet_calls_head st v.invItem loc 0
      refine ⟨[], t, (inventoryMagPhase loc ws
          ((inventoryDeleteLevel (inventorySet st v.invItem loc 0).1 v.invItem loc).1)).2, ?_⟩
      rw [hstep]
      show ((inventorySet st v.invItem loc 0).2 ++ [Call.restInvDelete v.invItem loc]) ++ _ = _
      rw [ht]
      simp
    · obtain ⟨l1, l2, l3, hdec⟩ := ih
        ((inventoryDeleteLevel (inventorySet st w.invItem loc 0).1 w.invItem loc).1) v hv2
      refine ⟨((inventorySet st w.invItem loc 0).2 ++
          [Call.restInvDelete w.invItem loc]) ++ l1, l2, l3, ?_⟩
      rw [hstep]
      show ((inventorySet st w.invItem loc 0).2 ++ [Call.restInvDelete w.invItem loc]) ++ _ = _
      rw [hdec]
      simp

theorem connectFold_level (loc : Nat) (vars : List SVariant) :
    ∀ (st : Store) (j m : Nat), ¬((∃ v ∈ vars, v.invItem = j) ∧ m = loc) →
      getLevel (foldSteps (fun s v => inventoryConnect s v.invItem loc) st vars).1 j m
        = getLevel st j m := by
  induction vars with
  | nil => intro st j m _; rfl
  | cons v vs ih =>
    intro st j m hn
    rw [foldSteps_cons]
    show getLevel (foldSteps _ (inventoryConnect st v.invItem loc).1 vs).1 j m = _
    rw [ih _ j m (fun hc => hn ⟨⟨hc.1.choose,
      List.mem_cons_of_mem v hc.1.choose_spec.1, hc.1.choose_spec.2⟩, hc.2⟩)]
    rw [getLevel_inventoryConnect]
    rw [if_neg (fun hc => hn ⟨⟨v, List.mem_cons_self v vs, hc.1.symm⟩, hc.2⟩)]

theorem promoPhase_level (sku : String) (promoL : Nat) (vars : List SVariant)
    (row : SheetRow) (tv : SVariant) (q : ℤ)
    (htv : findTargetVariant vars sku (pyStrip (row.taglia.getD "")) = some tv)
    (hq : parseQta (qtaCell row) = q) :
    ∀ (st : Store) (j m : Nat),
      getLevel (inventoryPromoPhase sku promoL vars [row] st).1 j m =
        if j = tv.invItem ∧ m = promoL then some q
        else if (∃ v ∈ vars, v.invItem = j) ∧ m = promoL then some 0
        else getLevel st j m := by
  intro st j m
  have hstep : (inventoryPromoPhase sku promoL vars [row] st).1 =
      (inventorySet (foldSteps (fun s v => inventorySet s v.invItem promoL 0)
        (foldSteps (fun s v => inventoryConnect s v.invItem promoL) st vars).1 vars).1
        tv.invItem promoL q).1 := by
    show ((match findTargetVariant vars sku (pyStrip (row.taglia.getD "")) with
        | some tv2 => inventorySet (foldSteps
            (fun (s : Store) (v : SVariant) => inventorySet s v.invItem promoL 0)
            (foldSteps (fun (s : Store) (v : SVariant) => inventoryConnect s v.invItem promoL)
              st vars).1 vars).1
            tv2.invItem promoL (parseQta (qtaCell row))
        | none => ((foldSteps
            (fun (s : Store) (v : SVariant) => inventorySet s v.invItem promoL 0)
            (foldSteps (fun (s : Store) (v : SVariant) => inventoryConnect s v.invItem promoL)
              st vars).1 vars).1,
            ([] : List Call))).1) = _
    rw [htv, hq]
  rw [hstep, getLevel_inventorySet]
  by_cases h1 : j = tv.invItem ∧ m = promoL
  · rw [if_pos h1, if_pos h1]
  · rw [if_neg h1, if_neg h1]
    rw [zeroFold_level promoL vars _ j m]
    by_cases h2 : (∃ v ∈ vars, v.invItem = j) ∧ m = promoL
    · rw [if_pos h2, if_pos h2]
    · rw [if_neg h2, if_neg h2]
      exact connectFold_level promoL vars st j m h2

theorem inventoryStep_resolved (cfg : Cfg) (st : Store) (outletPid : Nat) (sku : String)
    (rows : List SheetRow) (pn mn pns mns : String) (promoL magL : Nat) (op : SProduct)
    (hpn : cfg.promoName = some pn) (hmn : cfg.magName = some mn)
    (hploc : getLocationByName st pn = some (promoL, pns))
    (hmloc : getLocationByName st mn = some (magL, mns))
    (hop : getProduct st outletPid = some op) :
    inventoryStep cfg st outletPid sku rows =
      ((inventoryMagPhase magL op.variants
          (inventoryPromoPhase sku promoL op.variants rows st).1).1,
        (Call.restGetLocations :: Call.gqlGetVariants outletPid ::
          (inventoryPromoPhase sku promoL op.variants rows st).2) ++
        (Call.restGetLocations :: Call.gqlGetVariants outletPid ::
          (inventoryMagPhase magL op.variants
            (inventoryPromoPhase sku promoL op.variants rows st).1).2)) := by
  have hploc2 : getLocationByName (inventoryPromoPhase sku promoL op.variants rows st).1 mn
      = some (magL, mns) := by
    rw [getLocationByName_congr _ st mn (inventoryPromoPhase_locations sku promoL op.variants rows st)]
    exact hmloc
  have hop2 : getProduct (inventoryPromoPhase sku promoL op.variants rows st).1 outletPid
      = some op := by
    rw [getProduct_congr _ st outletPid (inventoryPromoPhase_products sku promoL op.variants rows st)]
    exact hop
  simp only [inventoryStep, hpn, hmn, hploc, hop, hploc2, hop2,
    Option.map_some', Option.getD_some]

theorem filter_singleton_of_iff {α : Type} (p : α → Bool) (l : List α) :
    ∀ a : α, a ∈ l → l.Nodup → (∀ x ∈ l, p x = true ↔ x = a) →
      l.filter p = [a] := by
  induction l with
  | nil => intro a ha; cases ha
  | cons x xs ih =>
    intro a ha hnd hp
    rcases List.mem_cons.mp ha with rfl | ha2
    · rw [List.filter_cons_of_pos ((hp a (List.mem_cons_self a xs)).mpr rfl)]
      have hxs : xs.filter p = [] := by
        rw [List.filter_eq_nil_iff]
        intro y hy hpy
        have hya : y = a := (hp y (List.mem_cons_of_mem a hy)).mp hpy
        subst hya
        exact (List.nodup_cons.mp hnd).1 hy
      rw [hxs]
    · have hxa : x ≠ a := fun h => (List.nodup_cons.mp hnd).1 (h ▸ ha2)
      rw [List.filter_cons_of_neg (fun hpx =>
        hxa ((hp x (List.mem_cons_self x xs)).mp hpx))]
      exact ih a ha2 (List.nodup_cons.mp hnd).2
        (fun y hy => hp y (List.mem_cons_of_mem x hy))

/-- C2: with both location names configured and resolving, the two
locations distinct, the outlet resolving, a single sheet row whose
target variant is found with a positive quantity q (every row that
reaches the inventory step carries one, since the row filter of `main`
keeps only rows with a positive parsed quantity), and pairwise distinct
inventory items, the inventory step leaves the target variant at q and
every other variant at 0 on the promotional location (so exactly one
variant shows q there), leaves no variant connected to the warehouse
location, and for every variant the call trace zeroes the warehouse
level strictly before deleting it. -/
theorem inventory_reconciliation
    (cfg : Cfg) (st : Store) (outletPid : Nat) (sku : String) (row : SheetRow)
    (pn mn pns mns : String) (promoL magL : Nat) (op : SProduct) (tv : SVariant) (q : ℤ)
    (hpn : cfg.promoName = some pn) (hmn : cfg.magName = some mn)
    (hploc : getLocationByName st pn = some (promoL, pns))
    (hmloc : getLocationByName st mn = some (magL, mns))
    (hll : promoL ≠ magL)
    (hop : getProduct st outletPid = some op)
    (htv : findTargetVariant op.variants sku (pyStrip (row.taglia.getD "")) = some tv)
    (hq : parseQta (qtaCell row) = q) (hq0 : 0 < q)
    (hnd : (op.variants.map (fun v => v.invItem)).Nodup) :
    getLevel (inventoryStep cfg st outletPid sku [row]).1 tv.invItem promoL = some q ∧
    (∀ v ∈ op.variants, v.invItem ≠ tv.invItem →
      getLevel (inventoryStep cfg st outletPid sku [row]).1 v.invItem promoL = some 0) ∧
    (∀ v ∈ op.variants,
      getLevel (inventoryStep cfg st outletPid sku [row]).1 v.invItem magL = none) ∧
    (op.variants.filter (fun v =>
      getLevel (inventoryStep cfg st outletPid sku [row]).1 v.invItem promoL
        == some q)).length = 1 ∧
    (∀ v ∈ op.variants, ∃ l1 l2 l3,
      (inventoryStep cfg st outletPid sku [row]).2 =
        l1 ++ Call.restInvSet v.invItem magL 0 ::
          (l2 ++ Call.restInvDelete v.invItem magL :: l3)) := by
  have hres := inventoryStep_resolved cfg st outletPid sku [row] pn mn pns mns promoL magL op
    hpn hmn hploc hmloc hop
  have htvm : tv ∈ op.variants := by
    unfold findTargetVariant at htv
    split at htv
    · exact List.mem_of_find?_eq_some htv
    · exact List.mem_of_find?_eq_some htv
  have hlev : ∀ j m : Nat, getLevel (inventoryStep cfg st outletPid sku [row]).1 j m =
      if (∃ v ∈ op.variants, v.invItem = j) ∧ m = magL then none
      else if j = tv.invItem ∧ m = promoL then some q
      else if (∃ v ∈ op.variants, v.invItem = j) ∧ m = promoL then some 0
      else getLevel st j m := by
    intro j m
    rw [hres]
    have hm : getLevel (inventoryMagPhase magL op.variants
        (inventoryPromoPhase sku promoL op.variants [row] st).1).1 j m =
        if (∃ v ∈ op.variants, v.invItem = j) ∧ m = magL then none
        else getLevel (inventoryPromoPhase sku promoL op.variants [row] st).1 j m :=
      magFold_level magL op.variants _ j m
    show getLevel (inventoryMagPhase magL op.variants
        (inventoryPromoPhase sku promoL op.variants [row] st).1).1 j m = _
    rw [hm, promoPhase_level sku promoL op.variants row tv q htv hq st j m]
  refine ⟨?_, ?_, ?_, ?_, ?_⟩
  · rw [hlev]
    rw [if_neg (fun hc => hll hc.2)]
    rw [if_pos ⟨rfl, rfl⟩]
  · intro v hv hne
    rw [hlev]
    rw [if_neg (fun hc => hll hc.2)]
    rw [if_neg (fun hc => hne hc.1)]
    rw [if_pos ⟨⟨v, hv, rfl⟩, rfl⟩]
  · intro v hv
    rw [hlev]
    rw [if_pos ⟨⟨v, hv, rfl⟩, rfl⟩]
  · have hiff : ∀ x ∈ op.variants,
        ((getLevel (inventoryStep cfg st outletPid sku [row]).1 x.invItem promoL
          == some q) = true ↔ x = tv) := by
      intro x hx
      constructor
      · intro hbx
        by_cases hxi : x.invItem = tv.invItem
        · exact List.inj_on_of_nodup_map hnd hx htvm hxi
        · exfalso
          rw [hlev] at hbx
          rw [if_neg (fun hc => hll hc.2)] at hbx
          rw [if_neg (fun hc => hxi hc.1)] at hbx
          rw [if_pos ⟨⟨x, hx, rfl⟩, rfl⟩] at hbx
          rw [beq_iff_eq] at hbx
          have hzq : (0 : ℤ) = q := Option.some.inj hbx
          omega
      · intro hxtv
        subst hxtv
        rw [hlev]
        rw [if_neg (fun hc => hll hc.2)]
        rw [if_pos ⟨rfl, rfl⟩]
        simp
    rw [filter_singleton_of_iff _ op.variants tv htvm (List.Nodup.of_map _ hnd) hiff]
    rfl
  · intro v hv
    obtain ⟨l1, l2, l3, hdec⟩ := magPhase_order magL op.variants
      (inventoryPromoPhase sku promoL op.variants [row] st).1 v hv
    refine ⟨(Call.restGetLocations :: Call.gqlGetVariants outletPid ::
        (inventoryPromoPhase sku promoL op.variants [row] st).2) ++
        (Call.restGetLocations :: Call.gqlGetVariants outletPid :: l1), l2, l3, ?_⟩
    rw [hres]
    show (Call.restGetLocations :: Call.gqlGetVariants outletPid ::
        (inventoryPromoPhase sku promoL op.variants [row] st).2) ++
      (Call.restGetLocations :: Call.gqlGetVariants outletPid ::
        (inventoryMagPhase magL op.variants
          (inventoryPromoPhase sku promoL op.variants [row] st).1).2) = _
    rw [hdec]
    simp

/-- C2 witness: the reconciliation theorem instantiated on a concrete
two-variant outlet with quantity 5 on size 40. -/
theorem inventory_reconciliation_witness :
    getLevel (inventoryStep c2Cfg c2Store 1 "S" [c2Row]).1 101 7 = some 5 ∧
    getLevel (inventoryStep c2Cfg c2Store 1 "S" [c2Row]).1 102 7 = some 0 ∧
    getLevel (inventoryStep c2Cfg c2Store 1 "S" [c2Row]).1 101 5 = none ∧
    getLevel (inventoryStep c2Cfg c2Store 1 "S" [c2Row]).1 102 5 = none ∧
    ([c2V1, c2V2].filter (fun v =>
      getLevel (inventoryStep c2Cfg c2Store 1 "S" [c2Row]).1 v.invItem 7
        == some 5)).length = 1 ∧
    (∃ l1 l2 l3, (inventoryStep c2Cfg c2Store 1 "S" [c2Row]).2 =
      l1 ++ Call.restInvSet 102 5 0 :: (l2 ++ Call.restInvDelete 102 5 :: l3)) := by
  have h := inventory_reconciliation c2Cfg c2Store 1 "S" c2Row "Promo" "Mag" "Promo" "Mag"
    7 5 ⟨1, "Shoe", "shoe-outlet", PStatus.active, "", [c2V1, c2V2], [], []⟩ c2V1 5
    rfl rfl rfl rfl (by decide) rfl (by decide) (by decide) (by decide) (by decide)
  exact ⟨h.1, h.2.1 c2V2 (by decide) (by decide), h.2.2.1 c2V1 (by decide),
    h.2.2.1 c2V2 (by decide), h.2.2.2.1, h.2.2.2.2 c2V2 (by decide)⟩

